import Mathlib

/-!
Shallow embedding of the shadow-drive-rust client core:
the versioned storage-account model, the add-immutable-storage
instruction/transaction pipeline (`src/client/add_immutable_storage.rs`,
`src/client.rs`), and the GenesysGo auth handshake
(`auth/src/genesysgo_auth.rs`), together with byte-level models of the
external encoders the pipeline relies on (bincode transaction layout,
base64, base58, solana short-vec length prefixes).
-/

namespace ShadowDrive

/-! ### Little-endian fixed-width byte encoding -/

/-- Fixed-width little-endian byte encoding of a natural number. -/
def toBytesLE : Nat → Nat → List Nat
  | 0, _ => []
  | w + 1, n => (n % 256) :: toBytesLE w (n / 256)

/-- Value of a little-endian byte list. -/
def fromBytesLE : List Nat → Nat
  | [] => 0
  | b :: bs => b + 256 * fromBytesLE bs

theorem toBytesLE_length (w n : Nat) : (toBytesLE w n).length = w := by
  induction w generalizing n with
  | zero => rfl
  | succ w ih => simp [toBytesLE, ih]

theorem toBytesLE_lt (w n : Nat) : ∀ b ∈ toBytesLE w n, b < 256 := by
  induction w generalizing n with
  | zero => simp [toBytesLE]
  | succ w ih =>
      intro b hb
      simp only [toBytesLE, List.mem_cons] at hb
      rcases hb with rfl | hb
      · exact Nat.mod_lt _ (by omega)
      · exact ih _ b hb

theorem fromBytesLE_toBytesLE (w n : Nat) (h : n < 256 ^ w) :
    fromBytesLE (toBytesLE w n) = n := by
  induction w generalizing n with
  | zero =>
      simp only [toBytesLE, fromBytesLE]
      simp [Nat.pow_zero] at h
      omega
  | succ w ih =>
      simp only [toBytesLE, fromBytesLE]
      rw [ih (n / 256) (by
        rw [Nat.div_lt_iff_lt_mul (by omega)]
        calc n < 256 ^ (w + 1) := h
        _ = 256 ^ w * 256 := by rw [Nat.pow_succ]
        )]
      omega

/-- Split off the first `w` bytes of a stream. -/
def takeBytes : Nat → List Nat → Option (List Nat × List Nat)
  | 0, l => some ([], l)
  | _ + 1, [] => none
  | w + 1, b :: bs => (takeBytes w bs).map (fun p => (b :: p.1, p.2))

theorem takeBytes_append (w : Nat) (l rest : List Nat) (hw : l.length = w) :
    takeBytes w (l ++ rest) = some (l, rest) := by
  induction l generalizing w with
  | nil => subst hw; rfl
  | cons b bs ih =>
      subst hw
      simp [takeBytes, ih bs.length rfl]

/-- Decode a fixed-width little-endian natural from the front of a stream. -/
def decodeFixedLE (w : Nat) (l : List Nat) : Option (Nat × List Nat) :=
  (takeBytes w l).map (fun p => (fromBytesLE p.1, p.2))

theorem decodeFixedLE_toBytesLE (w n : Nat) (h : n < 256 ^ w) (rest : List Nat) :
    decodeFixedLE w (toBytesLE w n ++ rest) = some (n, rest) := by
  unfold decodeFixedLE
  rw [takeBytes_append w _ rest (toBytesLE_length w n)]
  simp [fromBytesLE_toBytesLE w n h]

/-! ### Solana short-vec (compact-u16) length prefix -/

/-- Compact-u16 encoding used by solana short-vec length prefixes. -/
def encodeShortU16 (n : Nat) : List Nat :=
  if n < 0x80 then [n]
  else if n < 0x4000 then [n % 0x80 + 0x80, n / 0x80]
  else [n % 0x80 + 0x80, (n / 0x80) % 0x80 + 0x80, n / 0x4000]

/-- Compact-u16 decoding (rejects non-canonical zero continuations and
values beyond 16 bits). -/
def decodeShortU16 : List Nat → Option (Nat × List Nat)
  | [] => none
  | b1 :: r1 =>
    if b1 < 0x80 then some (b1, r1)
    else
      match r1 with
      | [] => none
      | b2 :: r2 =>
        if b2 < 0x80 then
          if b2 = 0 then none else some ((b1 - 0x80) + b2 * 0x80, r2)
        else
          match r2 with
          | [] => none
          | b3 :: r3 =>
            if b3 = 0 ∨ 4 ≤ b3 then none
            else some ((b1 - 0x80) + (b2 - 0x80) * 0x80 + b3 * 0x4000, r3)

theorem encodeShortU16_lt (n : Nat) (h : n < 0x10000) :
    ∀ b ∈ encodeShortU16 n, b < 256 := by
  unfold encodeShortU16
  split
  · simp; omega
  · split <;> · simp; omega

theorem decodeShortU16_encode (n : Nat) (h : n < 0x10000) (rest : List Nat) :
    decodeShortU16 (encodeShortU16 n ++ rest) = some (n, rest) := by
  unfold encodeShortU16
  by_cases h1 : n < 0x80
  · simp [decodeShortU16, h1]
  · by_cases h2 : n < 0x4000
    · have hb1 : ¬ (n % 0x80 + 0x80 < 0x80) := by omega
      have hb2 : n / 0x80 < 0x80 := by omega
      have hb2ne : ¬ (n / 0x80 = 0) := by omega
      simp [decodeShortU16, h1, h2, hb1, hb2, hb2ne]
      omega
    · have hb1 : ¬ (n % 0x80 + 0x80 < 0x80) := by omega
      have hb2 : ¬ ((n / 0x80) % 0x80 + 0x80 < 0x80) := by omega
      have hb3 : ¬ (n / 0x4000 = 0 ∨ 4 ≤ n / 0x4000) := by omega
      simp [decodeShortU16, h1, h2, hb1, hb2, hb3]
      omega

/-! ### Base64 (standard alphabet, with padding) -/

/-- Standard base64 alphabet character for a 6-bit value. -/
def sextetToChar (n : Nat) : Char :=
  if n < 26 then Char.ofNat (65 + n)
  else if n < 52 then Char.ofNat (97 + (n - 26))
  else if n < 62 then Char.ofNat (48 + (n - 52))
  else if n = 62 then '+'
  else '/'

/-- Inverse of the base64 alphabet. -/
def charToSextet (c : Char) : Option Nat :=
  let n := c.toNat
  if 65 ≤ n ∧ n ≤ 90 then some (n - 65)
  else if 97 ≤ n ∧ n ≤ 122 then some (n - 97 + 26)
  else if 48 ≤ n ∧ n ≤ 57 then some (n - 48 + 52)
  else if n = 43 then some 62
  else if n = 47 then some 63
  else none

theorem charToSextet_sextetToChar : ∀ n : Fin 64, charToSextet (sextetToChar n.val) = some n.val := by
  decide

theorem charToSextet_sextetToChar_of_lt (n : Nat) (h : n < 64) :
    charToSextet (sextetToChar n) = some n :=
  charToSextet_sextetToChar ⟨n, h⟩

theorem sextetToChar_ne_eq : ∀ n : Fin 64, sextetToChar n.val ≠ '=' := by
  decide

theorem sextetToChar_ne_eq_of_lt (n : Nat) (h : n < 64) : sextetToChar n ≠ '=' :=
  sextetToChar_ne_eq ⟨n, h⟩

/-- Base64-encode a byte list into characters, 3 bytes per 4 characters,
padding the final partial group with `=`. -/
def b64encodeChars : List Nat → List Char
  | b1 :: b2 :: b3 :: rest =>
      sextetToChar (b1 / 4) :: sextetToChar ((b1 % 4) * 16 + b2 / 16) ::
      sextetToChar ((b2 % 16) * 4 + b3 / 64) :: sextetToChar (b3 % 64) :: b64encodeChars rest
  | [b1, b2] =>
      [sextetToChar (b1 / 4), sextetToChar ((b1 % 4) * 16 + b2 / 16),
       sextetToChar ((b2 % 16) * 4), '=']
  | [b1] => [sextetToChar (b1 / 4), sextetToChar ((b1 % 4) * 16), '=', '=']
  | [] => []

/-- Decode the final (possibly padded) base64 group. -/
def b64decodeLastGroup (c1 c2 c3 c4 : Char) : Option (List Nat) :=
  if c3 = '=' ∧ c4 = '=' then
    match charToSextet c1, charToSextet c2 with
    | some s1, some s2 => if s2 % 16 = 0 then some [s1 * 4 + s2 / 16] else none
    | _, _ => none
  else if c4 = '=' then
    match charToSextet c1, charToSextet c2, charToSextet c3 with
    | some s1, some s2, some s3 =>
        if s3 % 4 = 0 then some [s1 * 4 + s2 / 16, (s2 % 16) * 16 + s3 / 4] else none
    | _, _, _ => none
  else
    match charToSextet c1, charToSextet c2, charToSextet c3, charToSextet c4 with
    | some s1, some s2, some s3, some s4 =>
        some [s1 * 4 + s2 / 16, (s2 % 16) * 16 + s3 / 4, (s3 % 4) * 64 + s4]
    | _, _, _, _ => none

/-- Base64-decode a character list (groups of 4, padding only in the last group). -/
def b64decodeChars : List Char → Option (List Nat)
  | [] => some []
  | c1 :: c2 :: c3 :: c4 :: rest =>
      if rest.isEmpty then b64decodeLastGroup c1 c2 c3 c4
      else
        match charToSextet c1, charToSextet c2, charToSextet c3, charToSextet c4,
            b64decodeChars rest with
        | some s1, some s2, some s3, some s4, some tail =>
            some ((s1 * 4 + s2 / 16) :: ((s2 % 16) * 16 + s3 / 4) :: ((s3 % 4) * 64 + s4) :: tail)
        | _, _, _, _, _ => none
  | _ => none

theorem b64_roundtrip_aux :
    ∀ (fuel : Nat) (l : List Nat), l.length ≤ fuel → (∀ b ∈ l, b < 256) →
      b64decodeChars (b64encodeChars l) = some l := by
  intro fuel
  induction fuel with
  | zero =>
      intro l hl _
      have : l = [] := List.length_eq_zero.mp (Nat.le_zero.mp hl)
      subst this
      rfl
  | succ fuel ih =>
      intro l hl hb
      match l with
      | [] => rfl
      | [b1] =>
          have h1 : b1 < 256 := hb b1 (by simp)
          have e1 : b1 / 4 < 64 := by omega
          have e2 : (b1 % 4) * 16 < 64 := by omega
          show b64decodeLastGroup (sextetToChar (b1 / 4)) (sextetToChar ((b1 % 4) * 16)) '=' '='
            = some [b1]
          unfold b64decodeLastGroup
          rw [if_pos ⟨rfl, rfl⟩]
          rw [charToSextet_sextetToChar_of_lt _ e1, charToSextet_sextetToChar_of_lt _ e2]
          show (if ((b1 % 4) * 16) % 16 = 0 then
              some [(b1 / 4) * 4 + ((b1 % 4) * 16) / 16] else none) = some [b1]
          rw [if_pos (by omega)]
          simp only [Option.some.injEq, List.cons.injEq, and_true]
          omega
      | [b1, b2] =>
          have h1 : b1 < 256 := hb b1 (by simp)
          have h2 : b2 < 256 := hb b2 (by simp)
          have e1 : b1 / 4 < 64 := by omega
          have e2 : (b1 % 4) * 16 + b2 / 16 < 64 := by omega
          have e3 : (b2 % 16) * 4 < 64 := by omega
          show b64decodeLastGroup (sextetToChar (b1 / 4)) (sextetToChar ((b1 % 4) * 16 + b2 / 16))
              (sextetToChar ((b2 % 16) * 4)) '=' = some [b1, b2]
          unfold b64decodeLastGroup
          rw [if_neg (fun hc => sextetToChar_ne_eq_of_lt _ e3 hc.1)]
          rw [if_pos rfl]
          rw [charToSextet_sextetToChar_of_lt _ e1, charToSextet_sextetToChar_of_lt _ e2,
            charToSextet_sextetToChar_of_lt _ e3]
          show (if ((b2 % 16) * 4) % 4 = 0 then
              some [(b1 / 4) * 4 + ((b1 % 4) * 16 + b2 / 16) / 16,
                (((b1 % 4) * 16 + b2 / 16) % 16) * 16 + ((b2 % 16) * 4) / 4] else none)
            = some [b1, b2]
          rw [if_pos (by omega)]
          simp only [Option.some.injEq, List.cons.injEq, and_true]
          omega
      | b1 :: b2 :: b3 :: rest =>
          have h1 : b1 < 256 := hb b1 (by simp)
          have h2 : b2 < 256 := hb b2 (by simp)
          have h3 : b3 < 256 := hb b3 (by simp)
          have e1 : b1 / 4 < 64 := by omega
          have e2 : (b1 % 4) * 16 + b2 / 16 < 64 := by omega
          have e3 : (b2 % 16) * 4 + b3 / 64 < 64 := by omega
          have e4 : b3 % 64 < 64 := by omega
          have hrest : b64decodeChars (b64encodeChars rest) = some rest := by
            apply ih rest
            · simp at hl
              omega
            · intro b hbm
              exact hb b (by simp [hbm])
          match rest with
          | [] =>
              show b64decodeLastGroup (sextetToChar (b1 / 4))
                  (sextetToChar ((b1 % 4) * 16 + b2 / 16))
                  (sextetToChar ((b2 % 16) * 4 + b3 / 64)) (sextetToChar (b3 % 64))
                = some [b1, b2, b3]
              unfold b64decodeLastGroup
              rw [if_neg (fun hc => sextetToChar_ne_eq_of_lt _ e3 hc.1)]
              rw [if_neg (sextetToChar_ne_eq_of_lt _ e4)]
              rw [charToSextet_sextetToChar_of_lt _ e1, charToSextet_sextetToChar_of_lt _ e2,
                charToSextet_sextetToChar_of_lt _ e3, charToSextet_sextetToChar_of_lt _ e4]
              show some [(b1 / 4) * 4 + ((b1 % 4) * 16 + b2 / 16) / 16,
                  (((b1 % 4) * 16 + b2 / 16) % 16) * 16 + (((b2 % 16) * 4 + b3 / 64)) / 4,
                  (((b2 % 16) * 4 + b3 / 64) % 4) * 64 + b3 % 64]
                = some [b1, b2, b3]
              simp only [Option.some.injEq, List.cons.injEq, and_true]
              omega
          | r1 :: rtail =>
              have hne : (b64encodeChars (r1 :: rtail)).isEmpty = false := by
                match rtail with
                | [] => simp [b64encodeChars]
                | [x] => simp [b64encodeChars]
                | x :: y :: z => simp [b64encodeChars]
              have hstep : b64encodeChars (b1 :: b2 :: b3 :: r1 :: rtail)
                  = sextetToChar (b1 / 4) :: sextetToChar ((b1 % 4) * 16 + b2 / 16) ::
                    sextetToChar ((b2 % 16) * 4 + b3 / 64) :: sextetToChar (b3 % 64) ::
                    b64encodeChars (r1 :: rtail) := rfl
              rw [hstep]
              simp only [b64decodeChars, hne]
              rw [charToSextet_sextetToChar_of_lt _ e1, charToSextet_sextetToChar_of_lt _ e2,
                charToSextet_sextetToChar_of_lt _ e3, charToSextet_sextetToChar_of_lt _ e4,
                hrest]
              simp only [Bool.false_eq_true, if_false, Option.some.injEq, List.cons.injEq,
                eq_self_iff_true, and_true]
              omega

theorem b64_roundtrip (l : List Nat) (hb : ∀ b ∈ l, b < 256) :
    b64decodeChars (b64encodeChars l) = some l :=
  b64_roundtrip_aux l.length l (Nat.le_refl _) hb

/-- Base64 encoding of a byte list as a string
(model of `base64::encode` on the serialized transaction). -/
def base64_encode (l : List Nat) : String := ⟨b64encodeChars l⟩

/-- Base64 decoding of a string back to bytes. -/
def base64_decode (s : String) : Option (List Nat) := b64decodeChars s.data

theorem base64_decode_encode (l : List Nat) (hb : ∀ b ∈ l, b < 256) :
    base64_decode (base64_encode l) = some l :=
  b64_roundtrip l hb

/-! ### Solana transaction data model and its bincode wire layout

Pubkeys, signatures and blockhashes are 32/64/32-byte values, modelled as
naturals below `256 ^ 32` (resp. `256 ^ 64`) and serialized little-endian.
`Vec` fields of `Transaction`/`Message`/`CompiledInstruction` carry solana's
short-vec (compact-u16) length prefix, exactly as `bincode::serialize` emits
them through the `#[serde(with = "short_vec")]` attributes of the solana SDK. -/

structure AccountMeta where
  pubkey : Nat
  is_signer : Bool
  is_writable : Bool
deriving DecidableEq, Repr

structure Instruction where
  program_id : Nat
  accounts : List AccountMeta
  data : List Nat
deriving DecidableEq, Repr

structure MessageHeader where
  num_required_signatures : Nat
  num_readonly_signed_accounts : Nat
  num_readonly_unsigned_accounts : Nat
deriving DecidableEq, Repr

structure CompiledInstruction where
  program_id_index : Nat
  accounts : List Nat
  data : List Nat
deriving DecidableEq, Repr

structure Message where
  header : MessageHeader
  account_keys : List Nat
  recent_blockhash : Nat
  instructions : List CompiledInstruction
deriving DecidableEq, Repr

structure Transaction where
  signatures : List Nat
  message : Message
deriving DecidableEq, Repr

/-- Short-vec serialization: compact-u16 length prefix, then the elements. -/
def encodeShortVec {α : Type} (enc : α → List Nat) (l : List α) : List Nat :=
  encodeShortU16 l.length ++ (l.map enc).flatten

def serializeU8 (n : Nat) : List Nat := [n]

def serializeCompiledInstruction (ci : CompiledInstruction) : List Nat :=
  serializeU8 ci.program_id_index ++ encodeShortVec serializeU8 ci.accounts
    ++ encodeShortVec serializeU8 ci.data

def serializeMessage (m : Message) : List Nat :=
  [m.header.num_required_signatures, m.header.num_readonly_signed_accounts,
   m.header.num_readonly_unsigned_accounts]
  ++ encodeShortVec (toBytesLE 32) m.account_keys
  ++ toBytesLE 32 m.recent_blockhash
  ++ encodeShortVec serializeCompiledInstruction m.instructions

/-- Canonical bincode serialization of a signed solana transaction
(model of `bincode::serialize(&txn)`). -/
def serializeTransaction (t : Transaction) : List Nat :=
  encodeShortVec (toBytesLE 64) t.signatures ++ serializeMessage t.message

def decodeU8 : List Nat → Option (Nat × List Nat)
  | [] => none
  | b :: r => some (b, r)

def decodeCount {α : Type} (dec : List Nat → Option (α × List Nat)) :
    Nat → List Nat → Option (List α × List Nat)
  | 0, l => some ([], l)
  | k + 1, l =>
    match dec l with
    | none => none
    | some (x, r) =>
      match decodeCount dec k r with
      | none => none
      | some (xs, r2) => some (x :: xs, r2)

def decodeShortVec {α : Type} (dec : List Nat → Option (α × List Nat)) (l : List Nat) :
    Option (List α × List Nat) :=
  match decodeShortU16 l with
  | none => none
  | some (n, r) => decodeCount dec n r

def decodeCompiledInstruction (l : List Nat) : Option (CompiledInstruction × List Nat) :=
  match decodeU8 l with
  | none => none
  | some (pidx, r1) =>
    match decodeShortVec decodeU8 r1 with
    | none => none
    | some (accts, r2) =>
      match decodeShortVec decodeU8 r2 with
      | none => none
      | some (dat, r3) => some (⟨pidx, accts, dat⟩, r3)

def decodeMessage (l : List Nat) : Option (Message × List Nat) :=
  match decodeU8 l with
  | none => none
  | some (h1, r1) =>
    match decodeU8 r1 with
    | none => none
    | some (h2, r2) =>
      match decodeU8 r2 with
      | none => none
      | some (h3, r3) =>
        match decodeShortVec (decodeFixedLE 32) r3 with
        | none => none
        | some (keys, r4) =>
          match decodeFixedLE 32 r4 with
          | none => none
          | some (bh, r5) =>
            match decodeShortVec decodeCompiledInstruction r5 with
            | none => none
            | some (instrs, r6) => some (⟨⟨h1, h2, h3⟩, keys, bh, instrs⟩, r6)

/-- Bincode deserialization of a transaction from bytes. -/
def decodeTransaction (l : List Nat) : Option (Transaction × List Nat) :=
  match decodeShortVec (decodeFixedLE 64) l with
  | none => none
  | some (sigs, r1) =>
    match decodeMessage r1 with
    | none => none
    | some (msg, r2) => some (⟨sigs, msg⟩, r2)

/-! ### Wire-format roundtrip lemmas -/

theorem decodeCount_append {α : Type} (dec : List Nat → Option (α × List Nat))
    (enc : α → List Nat) (l : List α)
    (H : ∀ x ∈ l, ∀ r : List Nat, dec (enc x ++ r) = some (x, r)) (rest : List Nat) :
    decodeCount dec l.length ((l.map enc).flatten ++ rest) = some (l, rest) := by
  induction l with
  | nil => rfl
  | cons x xs ih =>
      have hx : dec (enc x ++ ((xs.map enc).flatten ++ rest))
          = some (x, (xs.map enc).flatten ++ rest) :=
        H x (by simp) _
      have hxs : decodeCount dec xs.length ((xs.map enc).flatten ++ rest) = some (xs, rest) :=
        ih (fun y hy r => H y (by simp [hy]) r)
      simp only [List.map_cons, List.flatten_cons, List.length_cons, List.append_assoc] at *
      simp only [decodeCount, hx, hxs]

theorem decodeShortVec_encode {α : Type} (dec : List Nat → Option (α × List Nat))
    (enc : α → List Nat) (l : List α) (hlen : l.length < 0x10000)
    (H : ∀ x ∈ l, ∀ r : List Nat, dec (enc x ++ r) = some (x, r)) (rest : List Nat) :
    decodeShortVec dec (encodeShortVec enc l ++ rest) = some (l, rest) := by
  unfold decodeShortVec encodeShortVec
  rw [List.append_assoc, decodeShortU16_encode _ hlen]
  exact decodeCount_append dec enc l H rest

theorem decodeU8_serialize (b : Nat) (r : List Nat) :
    decodeU8 (serializeU8 b ++ r) = some (b, r) := rfl

theorem decodeU8_cons (b : Nat) (r : List Nat) :
    decodeU8 (b :: r) = some (b, r) := rfl

/-- Well-formedness needed for the wire layout of a compiled instruction:
index and bytes fit in `u8`, vector lengths fit in the compact-u16 prefix. -/
def wfCompiledInstruction (ci : CompiledInstruction) : Prop :=
  ci.program_id_index < 256 ∧ ci.accounts.length < 0x10000 ∧ (∀ a ∈ ci.accounts, a < 256)
    ∧ ci.data.length < 0x10000 ∧ (∀ b ∈ ci.data, b < 256)

def wfMessage (m : Message) : Prop :=
  m.header.num_required_signatures < 256 ∧ m.header.num_readonly_signed_accounts < 256
    ∧ m.header.num_readonly_unsigned_accounts < 256
    ∧ m.account_keys.length < 0x10000 ∧ (∀ k ∈ m.account_keys, k < 256 ^ 32)
    ∧ m.recent_blockhash < 256 ^ 32
    ∧ m.instructions.length < 0x10000 ∧ ∀ ci ∈ m.instructions, wfCompiledInstruction ci

def wfTransaction (t : Transaction) : Prop :=
  t.signatures.length < 0x10000 ∧ (∀ s ∈ t.signatures, s < 256 ^ 64) ∧ wfMessage t.message

theorem decodeCompiledInstruction_serialize (ci : CompiledInstruction)
    (h : wfCompiledInstruction ci) (rest : List Nat) :
    decodeCompiledInstruction (serializeCompiledInstruction ci ++ rest) = some (ci, rest) := by
  obtain ⟨_, h2, _, h4, _⟩ := h
  unfold serializeCompiledInstruction
  rw [List.append_assoc, List.append_assoc]
  simp only [decodeCompiledInstruction, decodeU8_serialize,
    decodeShortVec_encode decodeU8 serializeU8 ci.accounts h2 (fun x _ r => rfl),
    decodeShortVec_encode decodeU8 serializeU8 ci.data h4 (fun x _ r => rfl)]

theorem decodeMessage_serialize (m : Message) (h : wfMessage m) (rest : List Nat) :
    decodeMessage (serializeMessage m ++ rest) = some (m, rest) := by
  obtain ⟨_, _, _, h4, h5, h6, h7, h8⟩ := h
  unfold serializeMessage
  simp only [List.cons_append, List.nil_append, List.append_assoc]
  simp only [decodeMessage, decodeU8_cons,
    decodeShortVec_encode (decodeFixedLE 32) (toBytesLE 32) m.account_keys h4
      (fun k hk r => decodeFixedLE_toBytesLE 32 k (h5 k hk) r),
    decodeFixedLE_toBytesLE 32 m.recent_blockhash h6,
    decodeShortVec_encode decodeCompiledInstruction serializeCompiledInstruction
      m.instructions h7 (fun ci hci r => decodeCompiledInstruction_serialize ci (h8 ci hci) r)]

theorem decodeTransaction_serialize (t : Transaction) (h : wfTransaction t) :
    decodeTransaction (serializeTransaction t) = some (t, []) := by
  obtain ⟨h1, h2, h3⟩ := h
  unfold serializeTransaction decodeTransaction
  have happ : encodeShortVec (toBytesLE 64) t.signatures ++ serializeMessage t.message
      = encodeShortVec (toBytesLE 64) t.signatures ++ (serializeMessage t.message ++ []) := by
    simp
  rw [happ]
  simp only [decodeShortVec_encode (decodeFixedLE 64) (toBytesLE 64) t.signatures h1
    (fun s hs r => decodeFixedLE_toBytesLE 64 s (h2 s hs) r),
    decodeMessage_serialize t.message h3]

/-! ### All serialized bytes are bytes (needed for the base64 layer) -/

theorem mem_encodeShortVec {α : Type} {enc : α → List Nat} {l : List α} {b : Nat}
    (hb : b ∈ encodeShortVec enc l) : b ∈ encodeShortU16 l.length ∨ ∃ x ∈ l, b ∈ enc x := by
  unfold encodeShortVec at hb
  rcases List.mem_append.mp hb with h | h
  · exact .inl h
  · rcases List.mem_flatten.mp h with ⟨bl, hbl, hbb⟩
    rcases List.mem_map.mp hbl with ⟨x, hx, rfl⟩
    exact .inr ⟨x, hx, hbb⟩

theorem encodeShortVec_lt {α : Type} (enc : α → List Nat) (l : List α)
    (hlen : l.length < 0x10000) (H : ∀ x ∈ l, ∀ b ∈ enc x, b < 256) :
    ∀ b ∈ encodeShortVec enc l, b < 256 := by
  intro b hb
  rcases mem_encodeShortVec hb with h | ⟨x, hx, hbx⟩
  · exact encodeShortU16_lt _ hlen b h
  · exact H x hx b hbx

theorem serializeCompiledInstruction_lt (ci : CompiledInstruction)
    (h : wfCompiledInstruction ci) : ∀ b ∈ serializeCompiledInstruction ci, b < 256 := by
  obtain ⟨h1, h2, h3, h4, h5⟩ := h
  intro b hb
  unfold serializeCompiledInstruction at hb
  rcases List.mem_append.mp hb with hb | hb
  rcases List.mem_append.mp hb with hb | hb
  · simp only [serializeU8, List.mem_singleton] at hb
    omega
  · exact encodeShortVec_lt _ _ h2 (fun x hx b hbx => by
      simp only [serializeU8, List.mem_singleton] at hbx
      subst hbx
      exact h3 _ hx) b hb
  · exact encodeShortVec_lt _ _ h4 (fun x hx b hbx => by
      simp only [serializeU8, List.mem_singleton] at hbx
      subst hbx
      exact h5 _ hx) b hb

theorem serializeMessage_lt (m : Message) (h : wfMessage m) :
    ∀ b ∈ serializeMessage m, b < 256 := by
  obtain ⟨h1, h2, h3, h4, h5, h6, h7, h8⟩ := h
  intro b hb
  unfold serializeMessage at hb
  rcases List.mem_append.mp hb with hb | hb
  rcases List.mem_append.mp hb with hb | hb
  rcases List.mem_append.mp hb with hb | hb
  · simp only [List.mem_cons, List.mem_singleton, List.not_mem_nil, or_false] at hb
    rcases hb with rfl | rfl | rfl
    · exact h1
    · exact h2
    · exact h3
  · exact encodeShortVec_lt _ _ h4 (fun k hk => toBytesLE_lt 32 k) b hb
  · exact toBytesLE_lt 32 _ b hb
  · exact encodeShortVec_lt _ _ h7
      (fun ci hci => serializeCompiledInstruction_lt ci (h8 ci hci)) b hb

theorem serializeTransaction_lt (t : Transaction) (h : wfTransaction t) :
    ∀ b ∈ serializeTransaction t, b < 256 := by
  obtain ⟨h1, h2, h3⟩ := h
  intro b hb
  unfold serializeTransaction at hb
  rcases List.mem_append.mp hb with hb | hb
  · exact encodeShortVec_lt _ _ h1 (fun s hs => toBytesLE_lt 64 s) b hb
  · exact serializeMessage_lt t.message h3 b hb

/-! ### Message compilation (model of solana `Message::new_with_payer`) -/

/-- First-occurrence deduplication, skipping keys already seen. -/
def uniqueKeysAux : List Nat → List Nat → List Nat
  | _, [] => []
  | seen, k :: ks =>
    if k ∈ seen then uniqueKeysAux seen ks else k :: uniqueKeysAux (k :: seen) ks

def isSignerKey (payer : Nat) (metas : List AccountMeta) (k : Nat) : Bool :=
  k == payer || metas.any (fun m => m.pubkey == k && m.is_signer)

def isWritableKey (payer : Nat) (metas : List AccountMeta) (k : Nat) : Bool :=
  k == payer || metas.any (fun m => m.pubkey == k && m.is_writable)

/-- Modelled from the spec: solana-sdk `Message::new(&instructions, Some(&payer))`
is external library code. It collects the fee payer first (signer, writable),
then the instructions' account metas and invoked program ids (readonly
non-signers), deduplicated with merged flags and grouped signer-writable,
signer-readonly, nonsigner-writable, nonsigner-readonly; the header counts
the signer and readonly groups. -/
def ixMetas (ixs : List Instruction) : List AccountMeta := (ixs.map (·.accounts)).flatten

def ixCandidates (payer : Nat) (ixs : List Instruction) : List Nat :=
  payer :: ((ixMetas ixs).map (·.pubkey) ++ ixs.map (·.program_id))

def swKeys (payer : Nat) (ixs : List Instruction) : List Nat :=
  (uniqueKeysAux [] (ixCandidates payer ixs)).filter
    (fun k => isSignerKey payer (ixMetas ixs) k && isWritableKey payer (ixMetas ixs) k)

def srKeys (payer : Nat) (ixs : List Instruction) : List Nat :=
  (uniqueKeysAux [] (ixCandidates payer ixs)).filter
    (fun k => isSignerKey payer (ixMetas ixs) k && !isWritableKey payer (ixMetas ixs) k)

def uwKeys (payer : Nat) (ixs : List Instruction) : List Nat :=
  (uniqueKeysAux [] (ixCandidates payer ixs)).filter
    (fun k => !isSignerKey payer (ixMetas ixs) k && isWritableKey payer (ixMetas ixs) k)

def urKeys (payer : Nat) (ixs : List Instruction) : List Nat :=
  (uniqueKeysAux [] (ixCandidates payer ixs)).filter
    (fun k => !isSignerKey payer (ixMetas ixs) k && !isWritableKey payer (ixMetas ixs) k)

def compileKeys (payer : Nat) (ixs : List Instruction) : List Nat × MessageHeader :=
  (swKeys payer ixs ++ srKeys payer ixs ++ uwKeys payer ixs ++ urKeys payer ixs,
   ⟨(swKeys payer ixs).length + (srKeys payer ixs).length, (srKeys payer ixs).length,
    (urKeys payer ixs).length⟩)

def compileInstruction (keys : List Nat) (ix : Instruction) : CompiledInstruction :=
  ⟨keys.indexOf ix.program_id, ix.accounts.map (fun m => keys.indexOf m.pubkey), ix.data⟩

def compileMessage (payer : Nat) (ixs : List Instruction) (blockhash : Nat) : Message :=
  ⟨(compileKeys payer ixs).2, (compileKeys payer ixs).1, blockhash,
   ixs.map (compileInstruction (compileKeys payer ixs).1)⟩

def mapOptM (f : Nat → Option Nat) : List Nat → Option (List Nat)
  | [] => some []
  | x :: xs =>
    match f x, mapOptM f xs with
    | some y, some ys => some (y :: ys)
    | _, _ => none

/-- Recover (program id, account addresses, data) of a compiled instruction by
looking its indices up in the account-keys table of the message. -/
def decompileInstruction (keys : List Nat) (ci : CompiledInstruction) :
    Option (Nat × List Nat × List Nat) :=
  match keys[ci.program_id_index]?, mapOptM (fun i => keys[i]?) ci.accounts with
  | some pid, some addrs => some (pid, addrs, ci.data)
  | _, _ => none

theorem mem_of_mem_uniqueKeysAux {a : Nat} :
    ∀ {seen l : List Nat}, a ∈ uniqueKeysAux seen l → a ∈ l := by
  intro seen l
  induction l generalizing seen with
  | nil => simp [uniqueKeysAux]
  | cons k ks ih =>
      intro h
      simp only [uniqueKeysAux] at h
      split at h
      · exact List.mem_cons_of_mem _ (ih h)
      · rcases List.mem_cons.mp h with rfl | h'
        · exact List.mem_cons_self _ _
        · exact List.mem_cons_of_mem _ (ih h')

theorem mem_uniqueKeysAux_of_mem {a : Nat} :
    ∀ {seen l : List Nat}, a ∈ l → a ∉ seen → a ∈ uniqueKeysAux seen l := by
  intro seen l
  induction l generalizing seen with
  | nil => simp
  | cons k ks ih =>
      intro h hseen
      simp only [uniqueKeysAux]
      split
      · rcases List.mem_cons.mp h with rfl | h'
        · exact absurd (by assumption) hseen
        · exact ih h' hseen
      · rcases List.mem_cons.mp h with rfl | h'
        · exact List.mem_cons_self _ _
        · by_cases hak : a = k
          · subst hak
            exact List.mem_cons_self _ _
          · exact List.mem_cons_of_mem _ (ih h' (by
              intro hc
              rcases List.mem_cons.mp hc with h'' | h''
              · exact hak h''
              · exact hseen h''))

theorem length_uniqueKeysAux :
    ∀ (seen l : List Nat), (uniqueKeysAux seen l).length ≤ l.length := by
  intro seen l
  induction l generalizing seen with
  | nil => simp [uniqueKeysAux]
  | cons k ks ih =>
      simp only [uniqueKeysAux]
      split
      · exact Nat.le_trans (ih _) (by simp)
      · simpa using Nat.succ_le_succ (ih _)

theorem getElem?_indexOf {l : List Nat} {x : Nat} (h : x ∈ l) :
    l[l.indexOf x]? = some x := by
  induction l with
  | nil => cases h
  | cons a as ih =>
      by_cases hx : x = a
      · subst hx
        simp [List.indexOf_cons_self]
      · have hmem : x ∈ as := by
          rcases List.mem_cons.mp h with h' | h'
          · exact absurd h' hx
          · exact h'
        have hne : (a == x) = false := beq_false_of_ne (Ne.symm hx)
        simp only [List.indexOf_cons, hne, cond_false]
        simpa using ih hmem

theorem indexOf_lt_length_of_mem {l : List Nat} {x : Nat} (h : x ∈ l) :
    l.indexOf x < l.length :=
  List.indexOf_lt_length.mpr h

theorem mapOptM_indexOf (keys : List Nat) (ms : List AccountMeta)
    (h : ∀ m ∈ ms, m.pubkey ∈ keys) :
    mapOptM (fun i => keys[i]?) (ms.map (fun m => keys.indexOf m.pubkey))
      = some (ms.map (·.pubkey)) := by
  induction ms with
  | nil => rfl
  | cons m ms ih =>
      simp only [List.map_cons, mapOptM]
      rw [getElem?_indexOf (h m (by simp)), ih (fun x hx => h x (by simp [hx]))]

theorem decompileInstruction_compile (keys : List Nat) (ix : Instruction)
    (hpid : ix.program_id ∈ keys) (hacc : ∀ m ∈ ix.accounts, m.pubkey ∈ keys) :
    decompileInstruction keys (compileInstruction keys ix)
      = some (ix.program_id, ix.accounts.map (·.pubkey), ix.data) := by
  unfold decompileInstruction compileInstruction
  rw [getElem?_indexOf hpid, mapOptM_indexOf keys ix.accounts hacc]

theorem mem_compileKeys_iff (payer : Nat) (ixs : List Instruction) (k : Nat) :
    k ∈ (compileKeys payer ixs).1 ↔ k ∈ uniqueKeysAux [] (ixCandidates payer ixs) := by
  unfold compileKeys swKeys srKeys uwKeys urKeys
  simp only [List.mem_append, List.mem_filter]
  constructor
  · intro h
    rcases h with ((⟨h, _⟩ | ⟨h, _⟩) | ⟨h, _⟩) | ⟨h, _⟩ <;> exact h
  · intro h
    rcases Bool.eq_false_or_eq_true (isSignerKey payer (ixMetas ixs) k) with hs | hs
      <;> rcases Bool.eq_false_or_eq_true (isWritableKey payer (ixMetas ixs) k) with hw | hw
    · exact .inl (.inl (.inl ⟨h, by simp [hs, hw]⟩))
    · exact .inl (.inl (.inr ⟨h, by simp [hs, hw]⟩))
    · exact .inl (.inr ⟨h, by simp [hs, hw]⟩)
    · exact .inr ⟨h, by simp [hs, hw]⟩

theorem mem_compileKeys_of_mem_candidates (payer : Nat) (ixs : List Instruction) (k : Nat)
    (h : k ∈ ixCandidates payer ixs) :
    k ∈ (compileKeys payer ixs).1 :=
  (mem_compileKeys_iff payer ixs k).mpr (mem_uniqueKeysAux_of_mem h (by simp))

theorem compileKeys_length_le (payer : Nat) (ixs : List Instruction) :
    ((compileKeys payer ixs).1).length ≤ 4 * (ixCandidates payer ixs).length := by
  unfold compileKeys swKeys srKeys uwKeys urKeys
  simp only [List.length_append]
  have hu := length_uniqueKeysAux [] (ixCandidates payer ixs)
  have f1 := List.length_filter_le
    (fun k => isSignerKey payer (ixMetas ixs) k && isWritableKey payer (ixMetas ixs) k)
    (uniqueKeysAux [] (ixCandidates payer ixs))
  have f2 := List.length_filter_le
    (fun k => isSignerKey payer (ixMetas ixs) k && !isWritableKey payer (ixMetas ixs) k)
    (uniqueKeysAux [] (ixCandidates payer ixs))
  have f3 := List.length_filter_le
    (fun k => !isSignerKey payer (ixMetas ixs) k && isWritableKey payer (ixMetas ixs) k)
    (uniqueKeysAux [] (ixCandidates payer ixs))
  have f4 := List.length_filter_le
    (fun k => !isSignerKey payer (ixMetas ixs) k && !isWritableKey payer (ixMetas ixs) k)
    (uniqueKeysAux [] (ixCandidates payer ixs))
  omega

theorem compileKeys_head (payer : Nat) (ixs : List Instruction) :
    ((compileKeys payer ixs).1).head? = some payer := by
  have h1 : uniqueKeysAux [] (ixCandidates payer ixs)
      = payer :: uniqueKeysAux [payer]
          ((ixMetas ixs).map (·.pubkey) ++ ixs.map (·.program_id)) := by
    simp [ixCandidates, uniqueKeysAux]
  have hsig : isSignerKey payer (ixMetas ixs) payer = true := by
    simp [isSignerKey]
  have hwri : isWritableKey payer (ixMetas ixs) payer = true := by
    simp [isWritableKey]
  unfold compileKeys swKeys
  rw [h1]
  simp [List.filter_cons, hsig, hwri]

/-! ### Idealized deterministic signature scheme -/

/-- Deterministic idealized signature model: the key pair is identified by the
public key, a signature is a pure 64-byte-sized function of key and message
(standing in for ed25519), and verification compares with the honest
signature. -/
def mkSig (pk : Nat) (msg : List Nat) : Nat := (pk + 3 * fromBytesLE msg + 1) % 256 ^ 64

theorem mkSig_lt (pk : Nat) (msg : List Nat) : mkSig pk msg < 256 ^ 64 :=
  Nat.mod_lt _ (by positivity)

def verifySig (pk : Nat) (msg : List Nat) (sig : Nat) : Bool := sig == mkSig pk msg

inductive SignerError
  | custom (s : String)
deriving DecidableEq, Repr

def formatSignerError : SignerError → String
  | .custom s => s

/-- A wallet (the `Signer` the client holds): its public key, plus an optional
signing error it reports instead of signing, to model `try_partial_sign`
key/signature failures. -/
structure Wallet where
  pk : Nat
  signError : Option SignerError := none

def Wallet.sign_message (w : Wallet) (msg : List Nat) : Nat := mkSig w.pk msg

def Wallet.try_sign_message (w : Wallet) (msg : List Nat) : Except SignerError Nat :=
  match w.signError with
  | some e => .error e
  | none => .ok (mkSig w.pk msg)

/-- Model of `Transaction::new_with_payer(&instructions, Some(&payer))` followed
by `txn.try_partial_sign(&[&wallet], blockhash)`: the message is compiled with
the freshly fetched blockhash and the wallet signs its serialization, the
signature placed at the slots of the wallet's key among the required signers;
other required-signer slots keep the all-zero default signature for later
co-signing. -/
def try_partial_sign (w : Wallet) (payer : Nat) (ixs : List Instruction) (blockhash : Nat) :
    Except SignerError Transaction :=
  let msg := compileMessage payer ixs blockhash
  match w.try_sign_message (serializeMessage msg) with
  | .error e => .error e
  | .ok sig =>
      .ok ⟨(List.range msg.header.num_required_signatures).map
        (fun i => if msg.account_keys[i]? = some w.pk then sig else 0), msg⟩

/-! ### JSON values and the error taxonomy -/

/-- JSON values (model of `serde_json::Value`). -/
inductive Json where
  | null
  | bool (b : Bool)
  | num (n : Int)
  | str (s : String)
  | arr (elems : List Json)
  | obj (fields : List (String × Json))

/-- Model of `solana_client::rpc_request::RpcError` (the variants the client
distinguishes; `ForUser` is what `get_account` reports for a missing account). -/
inductive RpcError where
  | ForUser (s : String)
  | RpcRequestError (s : String)
deriving DecidableEq, Repr

inductive ClientErrorKind where
  | RpcError (e : RpcError)
  | Io (s : String)
  | Custom (s : String)
deriving DecidableEq, Repr

/-- Model of `solana_client::client_error::ClientError` (the client only ever
inspects the `kind` field; the request field is matched with `..`). -/
structure ClientError where
  kind : ClientErrorKind
deriving DecidableEq, Repr

/-- Modelled from the spec: the crate's `error::Error` enum is not under
`src/`. Its constructors are reconstructed from the spec's error taxonomy
(validation, precondition, transport, server-reported, encoding errors), with
the `From` conversions the `?` operator relies on: `ClientError` wraps into
the generic transport variant, and a signing failure surfaces as
`TransactionSerializationFailed` with the underlying cause. -/
inductive Error where
  | ShadowDriveServerError (status : Nat) (message : Json)
  | SolanaRpcError (e : ClientError)
  | InvalidJson (s : String)
  | ReqwestError (s : String)
  | TransactionSerializationFailed (s : String)
  | InvalidStorage
  | UserInfoNotCreated
  | StorageAccountIsNotImmutable

def Error.fromClientError (e : ClientError) : Error := .SolanaRpcError e

def Error.fromSignerError (e : SignerError) : Error :=
  .TransactionSerializationFailed (formatSignerError e)

/-! ### Versioned storage accounts -/

/-- Modelled from the spec: `models::storage_acct::StorageAccount` (the V1
layout) is not under `src/`. Per the spec it carries owning public key(s),
total reserved bytes, bytes currently used, the `immutable` flag and an
identifier distinguishing accounts of the same owner. -/
structure StorageAccount where
  immutable : Bool
  owner_1 : Nat
  owner_2 : Nat
  reserved_bytes : Nat
  used_bytes : Nat
  identifier : Nat
deriving DecidableEq, Repr

/-- Modelled from the spec: `models::storage_acct::StorageAccountV2` is not
under `src/`; same shape as V1 (the spec notes V2 may support multiple
owners). -/
structure StorageAccountV2 where
  immutable : Bool
  owner_1 : Nat
  owner_2 : Nat
  reserved_bytes : Nat
  used_bytes : Nat
  identifier : Nat
deriving DecidableEq, Repr

/-- The tagged union the Account Schema Resolver produces. -/
inductive StorageAcct where
  | V1 (account : StorageAccount)
  | V2 (account : StorageAccountV2)
deriving DecidableEq, Repr

/-- The `immutable` flag of whichever variant resolved. -/
def StorageAcct.immutableFlag : StorageAcct → Bool
  | .V1 account => account.immutable
  | .V2 account => account.immutable

/-! ### Fixed addresses and derived addresses -/

/-- Modelled from the spec: `constants.rs` (program id, token mint, emissions
wallet, uploader, storage-config PDA) is not under `src/`; the fixed
addresses are represented by distinct abstract key values. -/
def PROGRAM_ADDRESS : Nat := 9001

/-- Modelled from the spec: fixed address, see `PROGRAM_ADDRESS`. -/
def TOKEN_MINT : Nat := 9002

/-- Modelled from the spec: fixed address, see `PROGRAM_ADDRESS`. -/
def UPLOADER : Nat := 9003

/-- Modelled from the spec: fixed address, see `PROGRAM_ADDRESS`. -/
def EMISSIONS : Nat := 9004

/-- Modelled from the spec: fixed address, see `PROGRAM_ADDRESS`. -/
def STORAGE_CONFIG_PDA : Nat := 9005

/-- The system program's fixed (all-zero) address. -/
def SYSTEM_PROGRAM_ID : Nat := 0

/-- Modelled from the spec: `spl_token::ID`, a fixed address. -/
def TOKEN_PROGRAM_ID : Nat := 9006

/-- The coordinator endpoint base URL from `constants.rs`. -/
def SHDW_DRIVE_ENDPOINT : String := "https://shadow-storage.genesysgo.net"

/-- Modelled from the spec:
`spl_associated_token_account::get_associated_token_address`, a deterministic
pure derivation of an address from (wallet, mint), no network call. -/
def get_associated_token_address (wallet mint : Nat) : Nat :=
  (2 + wallet * 5 + mint * 7) % 256 ^ 32

/-- Modelled from the spec: `derived_addresses::user_info(&wallet)`, the pure
derivation (address, bump) of the "user info" side-table account of a wallet
from the owner key and a fixed seed. -/
def user_info (wallet : Nat) : Nat × Nat := ((3 + wallet * 11) % 256 ^ 32, 255)

/-! ### The add-immutable-storage instruction -/

/-- Modelled from the spec: the anchor `InstructionData` encoding of
`shdw_drive_instructions::IncreaseImmutableStorage { additional_storage }` is
an 8-byte instruction discriminator followed by the `u64` argument
little-endian; the discriminator bytes of the external program crate are
represented by fixed distinct byte values. -/
def INCREASE_IMMUTABLE_STORAGE_DISC : List Nat := [16, 1, 2, 3, 4, 5, 6, 7]

/-- Modelled from the spec: discriminator of `IncreaseImmutableStorage2`
(the V2 instruction variant), see `INCREASE_IMMUTABLE_STORAGE_DISC`. -/
def INCREASE_IMMUTABLE_STORAGE2_DISC : List Nat := [17, 1, 2, 3, 4, 5, 6, 7]

def increaseImmutableStorageData (additional_storage : Nat) : List Nat :=
  INCREASE_IMMUTABLE_STORAGE_DISC ++ toBytesLE 8 additional_storage

def increaseImmutableStorage2Data (additional_storage : Nat) : List Nat :=
  INCREASE_IMMUTABLE_STORAGE2_DISC ++ toBytesLE 8 additional_storage

/-- The accounts struct `shdw_drive_accounts::IncreaseImmutableStorageV1`,
with the fields `add_immutable_storage_v1` fills in. -/
structure IncreaseImmutableStorageV1Accounts where
  storage_config : Nat
  storage_account : Nat
  emissions_wallet : Nat
  owner : Nat
  owner_ata : Nat
  uploader : Nat
  token_mint : Nat
  system_program : Nat
  token_program : Nat
deriving DecidableEq, Repr

/-- The accounts struct `shdw_drive_accounts::IncreaseImmutableStorageV2`,
with the fields `add_immutable_storage_v2` fills in (same fields as V1). -/
structure IncreaseImmutableStorageV2Accounts where
  storage_config : Nat
  storage_account : Nat
  emissions_wallet : Nat
  owner : Nat
  owner_ata : Nat
  uploader : Nat
  token_mint : Nat
  system_program : Nat
  token_program : Nat
deriving DecidableEq, Repr

/-- Modelled from the spec: anchor's derived `ToAccountMetas` for the external
`IncreaseImmutableStorageV1` accounts struct; the metas appear in struct field
order, with signer/writable flags as the program declares them (owner and
uploader sign; config, storage account, emissions wallet and the ATAs are
writable). -/
def IncreaseImmutableStorageV1Accounts.to_account_metas
    (a : IncreaseImmutableStorageV1Accounts) : List AccountMeta :=
  [⟨a.storage_config, false, true⟩, ⟨a.storage_account, false, true⟩,
   ⟨a.emissions_wallet, false, true⟩, ⟨a.owner, true, true⟩, ⟨a.owner_ata, false, true⟩,
   ⟨a.uploader, true, false⟩, ⟨a.token_mint, false, false⟩,
   ⟨a.system_program, false, false⟩, ⟨a.token_program, false, false⟩]

/-- Modelled from the spec: anchor's derived `ToAccountMetas` for the external
`IncreaseImmutableStorageV2` accounts struct, identical in shape to V1. -/
def IncreaseImmutableStorageV2Accounts.to_account_metas
    (a : IncreaseImmutableStorageV2Accounts) : List AccountMeta :=
  [⟨a.storage_config, false, true⟩, ⟨a.storage_account, false, true⟩,
   ⟨a.emissions_wallet, false, true⟩, ⟨a.owner, true, true⟩, ⟨a.owner_ata, false, true⟩,
   ⟨a.uploader, true, false⟩, ⟨a.token_mint, false, false⟩,
   ⟨a.system_program, false, false⟩, ⟨a.token_program, false, false⟩]

/-- The instruction `add_immutable_storage_v1` builds: program id
`PROGRAM_ADDRESS`, the V1 accounts (owner taken from the resolved account's
`owner_1`), and the `IncreaseImmutableStorage` argument payload. -/
def add_immutable_storage_ix_v1 (wallet_pubkey storage_account_key : Nat)
    (storage_account : StorageAccount) (size_as_bytes : Nat) : Instruction :=
  Instruction.mk PROGRAM_ADDRESS
    (IncreaseImmutableStorageV1Accounts.to_account_metas
      ⟨STORAGE_CONFIG_PDA, storage_account_key,
       get_associated_token_address EMISSIONS TOKEN_MINT, storage_account.owner_1,
       get_associated_token_address wallet_pubkey TOKEN_MINT, UPLOADER, TOKEN_MINT,
       SYSTEM_PROGRAM_ID, TOKEN_PROGRAM_ID⟩)
    (increaseImmutableStorageData size_as_bytes)

/-- The instruction `add_immutable_storage_v2` builds (owner again taken from
the account's `owner_1`; the `IncreaseImmutableStorage2` payload). -/
def add_immutable_storage_ix_v2 (wallet_pubkey storage_account_key : Nat)
    (storage_account : StorageAccountV2) (size_as_bytes : Nat) : Instruction :=
  Instruction.mk PROGRAM_ADDRESS
    (IncreaseImmutableStorageV2Accounts.to_account_metas
      ⟨STORAGE_CONFIG_PDA, storage_account_key,
       get_associated_token_address EMISSIONS TOKEN_MINT, storage_account.owner_1,
       get_associated_token_address wallet_pubkey TOKEN_MINT, UPLOADER, TOKEN_MINT,
       SYSTEM_PROGRAM_ID, TOKEN_PROGRAM_ID⟩)
    (increaseImmutableStorage2Data size_as_bytes)

/-! ### HTTP model and the coordinator client -/

/-- One network interaction of the pipeline, in order of occurrence. -/
inductive NetAction where
  | getAccount (address : Nat)
  | getStorageAccount (address : Nat)
  | getLatestBlockhash
  | postTransaction (uri : String) (txn_encoded : String)
deriving DecidableEq, Repr

/-- An HTTP response: status code plus the JSON parse of the body (`none`
models a body that is not valid JSON, on which `Response::json` fails with a
decode error). -/
structure HttpResponse where
  status : Nat
  body : Option Json

/-- The environment a single `add_immutable_storage` call runs against: what
each network interaction would return if performed. -/
structure Env where
  user_info_account : Except ClientError Unit
  storage_account : Except Error StorageAcct
  latest_blockhash : Except ClientError Nat
  post_response : Except String HttpResponse

/-- `reqwest::StatusCode::is_success`: 2xx. -/
def statusIsSuccess (status : Nat) : Bool := 200 ≤ status && status < 300

def jsonLookup (j : Json) (key : String) : Option Json :=
  match j with
  | .obj fields => fields.lookup key
  | _ => none

/-- Modelled from the spec: `models::ShdwDriveResponse`, the operation-specific
success body of a coordinator transaction submission (not under `src/`). -/
structure ShdwDriveResponse where
  message : String
deriving DecidableEq, Repr

/-- Modelled from the spec: serde deserialization of `ShdwDriveResponse`
(a typed decode, as `response.json::<ShdwDriveResponse>()` performs). -/
def decodeShdwDriveResponse (j : Json) : Option ShdwDriveResponse :=
  match jsonLookup j "message" with
  | some (.str s) => some ⟨s⟩
  | _ => none

/-- Modelled from the spec: `models::FileDataResponse`, the metadata body of
`get-object-data` (not under `src/`). -/
structure FileDataResponse where
  file_data : Json

/-- Modelled from the spec: serde deserialization of `FileDataResponse`. -/
def decodeFileDataResponse (j : Json) : Option FileDataResponse :=
  match jsonLookup j "file_data" with
  | some j' => some ⟨j'⟩
  | none => none

/-- `send_shdw_txn` from `src/client.rs`, given the transport's response:
POST the encoded transaction, convert any non-2xx response into
`ShadowDriveServerError` carrying the status and the JSON body, and decode a
success body into `ShdwDriveResponse`. The second component records the POST
performed. -/
def send_shdw_txn (post_response : Except String HttpResponse) (uri : String)
    (txn_encoded : String) : Except Error ShdwDriveResponse × List NetAction :=
  match post_response with
  | .error e => (.error (.ReqwestError e), [.postTransaction uri txn_encoded])
  | .ok response =>
    if !statusIsSuccess response.status then
      match response.body with
      | none => (.error (.ReqwestError "error decoding response body"),
          [.postTransaction uri txn_encoded])
      | some j => (.error (.ShadowDriveServerError response.status j),
          [.postTransaction uri txn_encoded])
    else
      match response.body with
      | none => (.error (.ReqwestError "error decoding response body"),
          [.postTransaction uri txn_encoded])
      | some j =>
        match decodeShdwDriveResponse j with
        | none => (.error (.ReqwestError "error decoding response body"),
            [.postTransaction uri txn_encoded])
        | some r => (.ok r, [.postTransaction uri txn_encoded])

/-- `get_object_data` from `src/client.rs`, given the transport's response:
non-2xx responses become `ShadowDriveServerError{status, message}`, success
bodies decode into `FileDataResponse`. -/
def get_object_data (post_response : Except String HttpResponse) (location : String) :
    Except Error FileDataResponse :=
  match post_response with
  | .error e => .error (.ReqwestError e)
  | .ok response =>
    if !statusIsSuccess response.status then
      match response.body with
      | none => .error (.ReqwestError "error decoding response body")
      | some j => .error (.ShadowDriveServerError response.status j)
    else
      match response.body with
      | none => .error (.ReqwestError "error decoding response body")
      | some j =>
        match decodeFileDataResponse j with
        | none => .error (.ReqwestError "error decoding response body")
        | some r => .ok r

/-- `serialize_and_encode` from `src/client.rs`: bincode-serialize the signed
transaction (a bincode failure would map to `TransactionSerializationFailed`;
the byte-level model is total) and base64-encode the result. -/
def serialize_and_encode (txn : Transaction) : Except Error String :=
  .ok (base64_encode (serializeTransaction txn))

/-! ### Size parameters (`byte_unit` crate) -/

/-- The units of the external `byte_unit` crate in which a `size` argument can
be expressed (decimal and binary prefixes). -/
inductive ByteUnit where
  | B | KB | KiB | MB | MiB | GB | GiB | TB | TiB | PB | PiB
deriving DecidableEq, Repr

def ByteUnit.factor : ByteUnit → Nat
  | .B => 1
  | .KB => 1000
  | .KiB => 1024
  | .MB => 1000000
  | .MiB => 1048576
  | .GB => 1000000000
  | .GiB => 1073741824
  | .TB => 1000000000000
  | .TiB => 1099511627776
  | .PB => 1000000000000000
  | .PiB => 1125899906842624

/-- `byte_unit::Byte`: a size, stored as its total byte count (`u128`). -/
structure Byte where
  bytes : Nat
deriving DecidableEq, Repr

/-- `byte_unit::Byte::from_unit(value, unit)`: a size expressed as a value
with a unit suffix. -/
def Byte.from_unit (value : Nat) (unit : ByteUnit) : Byte := ⟨value * unit.factor⟩

def Byte.get_bytes (b : Byte) : Nat := b.bytes

/-- The size-normalization step of `add_immutable_storage`
(`size.get_bytes().try_into().map_err(|_| Error::InvalidStorage)`): the
`u128 → u64` conversion fails with `InvalidStorage` exactly when the byte
count does not fit in a `u64`. -/
def size_as_bytes_u64 (size : Byte) : Except Error Nat :=
  if size.get_bytes < 2 ^ 64 then .ok size.get_bytes else .error .InvalidStorage

/-! ### The add-immutable-storage pipeline -/

/-- `add_immutable_storage_v1` (private helper in
`src/client/add_immutable_storage.rs`): build the V1 instruction, fetch a
recent blockhash, partially sign with the wallet and encode. The second
component records the network interactions performed. -/
def add_immutable_storage_v1 (w : Wallet) (env : Env) (storage_account_key : Nat)
    (storage_account : StorageAccount) (size_as_bytes : Nat) :
    Except Error String × List NetAction :=
  match env.latest_blockhash with
  | .error ce => (.error (Error.fromClientError ce), [.getLatestBlockhash])
  | .ok blockhash =>
    match try_partial_sign w w.pk
        [add_immutable_storage_ix_v1 w.pk storage_account_key storage_account size_as_bytes]
        blockhash with
    | .error e => (.error (Error.fromSignerError e), [.getLatestBlockhash])
    | .ok txn =>
      match serialize_and_encode txn with
      | .error e => (.error e, [.getLatestBlockhash])
      | .ok txn_encoded => (.ok txn_encoded, [.getLatestBlockhash])

/-- `add_immutable_storage_v2` (private helper): same pipeline over the V2
instruction variant. -/
def add_immutable_storage_v2 (w : Wallet) (env : Env) (storage_account_key : Nat)
    (storage_account : StorageAccountV2) (size_as_bytes : Nat) :
    Except Error String × List NetAction :=
  match env.latest_blockhash with
  | .error ce => (.error (Error.fromClientError ce), [.getLatestBlockhash])
  | .ok blockhash =>
    match try_partial_sign w w.pk
        [add_immutable_storage_ix_v2 w.pk storage_account_key storage_account size_as_bytes]
        blockhash with
    | .error e => (.error (Error.fromSignerError e), [.getLatestBlockhash])
    | .ok txn =>
      match serialize_and_encode txn with
      | .error e => (.error e, [.getLatestBlockhash])
      | .ok txn_encoded => (.ok txn_encoded, [.getLatestBlockhash])

/-- `add_immutable_storage` from `src/client/add_immutable_storage.rs`: size
normalization, user-info existence check (`RpcError::ForUser` means the
account does not exist → `UserInfoNotCreated`; any other RPC error
propagates), storage-account resolution, the immutability precondition per
resolved variant, version dispatch to the V1/V2 builder, then submission of
the encoded transaction to `add-storage`. The second component lists the
network interactions performed, in order. -/
def add_immutable_storage (w : Wallet) (env : Env) (storage_account_key : Nat)
    (size : Byte) : Except Error ShdwDriveResponse × List NetAction :=
  match size_as_bytes_u64 size with
  | .error e => (.error e, [])
  | .ok size_as_bytes =>
    match env.user_info_account with
    | .error (ClientError.mk (ClientErrorKind.RpcError (RpcError.ForUser _))) =>
        (.error .UserInfoNotCreated, [.getAccount (user_info w.pk).1])
    | .error err => (.error (Error.fromClientError err), [.getAccount (user_info w.pk).1])
    | .ok _ =>
      match env.storage_account with
      | .error e => (.error e,
          [.getAccount (user_info w.pk).1, .getStorageAccount storage_account_key])
      | .ok (StorageAcct.V1 storage_account) =>
        if !storage_account.immutable then
          (.error .StorageAccountIsNotImmutable,
           [.getAccount (user_info w.pk).1, .getStorageAccount storage_account_key])
        else
          match add_immutable_storage_v1 w env storage_account_key storage_account
              size_as_bytes with
          | (.error e, acts) => (.error e,
              .getAccount (user_info w.pk).1 :: .getStorageAccount storage_account_key :: acts)
          | (.ok txn_encoded, acts) =>
            match send_shdw_txn env.post_response "add-storage" txn_encoded with
            | (result, acts2) => (result,
                .getAccount (user_info w.pk).1 :: .getStorageAccount storage_account_key ::
                  (acts ++ acts2))
      | .ok (StorageAcct.V2 storage_account) =>
        if !storage_account.immutable then
          (.error .StorageAccountIsNotImmutable,
           [.getAccount (user_info w.pk).1, .getStorageAccount storage_account_key])
        else
          match add_immutable_storage_v2 w env storage_account_key storage_account
              size_as_bytes with
          | (.error e, acts) => (.error e,
              .getAccount (user_info w.pk).1 :: .getStorageAccount storage_account_key :: acts)
          | (.ok txn_encoded, acts) =>
            match send_shdw_txn env.post_response "add-storage" txn_encoded with
            | (result, acts2) => (result,
                .getAccount (user_info w.pk).1 :: .getStorageAccount storage_account_key ::
                  (acts ++ acts2))

/-! ### GenesysGo auth handshake (`auth/src/genesysgo_auth.rs`) -/

/-- The fixed, publicly known challenge string signed in Step #1. -/
def SIGNIN_MSG : String := "Sign in to GenesysGo Shadow Platform."

def PORTAL_SIGNIN_URL : String := "https://portal.genesysgo.net/api/signin"

def RPC_SIGNIN_URL : String := "https://portal.genesysgo.net/api/premium/token"

/-- UTF-8 bytes of an ASCII string (all strings signed here are ASCII). -/
def strBytes (s : String) : List Nat := s.data.map Char.toNat

def BASE58_ALPHABET : List Char :=
  "123456789ABCDEFGHJKLMNPQRSTUVWXYZabcdefghijkmnopqrstuvwxyz".data

/-- Base-58 digits of a natural, least significant first. -/
def base58Digits (n : Nat) : List Nat :=
  if h : n = 0 then []
  else (n % 58) :: base58Digits (n / 58)
decreasing_by exact Nat.div_lt_self (Nat.pos_of_ne_zero h) (by omega)

def countLeadingZeroBytes : List Nat → Nat
  | [] => 0
  | b :: bs => if b = 0 then countLeadingZeroBytes bs + 1 else 0

def fromBytesBE (l : List Nat) : Nat := l.foldl (fun acc b => acc * 256 + b) 0

/-- `bs58::encode(bytes).into_string()`: big-endian base-58 digits over the
alphabet, with one leading `1` per leading zero byte. -/
def bs58_encode (bytes : List Nat) : String :=
  ⟨List.replicate (countLeadingZeroBytes bytes) '1'
    ++ (base58Digits (fromBytesBE bytes)).reverse.map (fun d => BASE58_ALPHABET.getD d ' ')⟩

def hexDigitChar (n : Nat) : Char :=
  if n < 10 then Char.ofNat (48 + n) else Char.ofNat (87 + n)

/-- JSON string escaping as `serde_json` performs it: quote and backslash are
escaped, control characters take a `\u00XX` form (the two-character shorthands
for tab/newline etc. never arise for the strings at hand), everything else
passes through. -/
def escJsonChar (c : Char) : List Char :=
  if c = '"' then ['\\', '"']
  else if c = '\\' then ['\\', '\\']
  else if c.toNat < 32 then
    ['\\', 'u', '0', '0', hexDigitChar (c.toNat / 16), hexDigitChar (c.toNat % 16)]
  else [c]

def escJson (s : String) : String := ⟨(s.data.map escJsonChar).flatten⟩

def jsonStrLit (s : String) : String := "\"" ++ escJson s ++ "\""

/-- The request body struct for sign-in Step #1 (field order as declared:
`message`, then `signer`). -/
structure GenesysGoAuth where
  message : String
  signer : String
deriving DecidableEq, Repr

/-- `serde_json::to_string(&GenesysGoAuth { .. })`: struct fields serialize in
declaration order. -/
def GenesysGoAuth.to_json_string (g : GenesysGoAuth) : String :=
  "\x7b\"message\":" ++ jsonStrLit g.message ++ ",\"signer\":" ++ jsonStrLit g.signer ++ "\x7d"

/-- An HTTP request as the auth client assembles it. -/
structure HttpRequest where
  url : String
  headers : List (String × String)
  body : Option String
deriving DecidableEq, Repr

/-- Solana `Pubkey`'s `Display` implementation: base58 of the 32 key bytes
(the abstract key value rendered through its byte representation). -/
def pubkeyToString (pk : Nat) : String := bs58_encode (toBytesLE 32 pk)

/-- The request `genesysgo_portal_auth` builds (sign-in Step #1): sign the
fixed challenge string with the wallet, base58-encode the raw signature
bytes, and POST the serialized `GenesysGoAuth` body to the portal sign-in
URL. -/
def genesysgo_portal_auth_request (w : Wallet) : HttpRequest :=
  HttpRequest.mk PORTAL_SIGNIN_URL [("Content-Type", "application/json")]
    (some (GenesysGoAuth.to_json_string
      (GenesysGoAuth.mk (bs58_encode (toBytesLE 64 (w.sign_message (strBytes SIGNIN_MSG))))
        (pubkeyToString w.pk))))

/-- The request `genesysgo_rpc_auth` builds (sign-in Step #2): POST with no
body to `RPC_SIGNIN_URL/{account_id}`, bearing the step-1 token in the
`Authorization` header. -/
def genesysgo_rpc_auth_request (account_id step_1_auth_token : String) : HttpRequest :=
  HttpRequest.mk (RPC_SIGNIN_URL ++ "/" ++ account_id)
    [("Content-Type", "application/json"),
     ("Authorization", "Bearer " ++ step_1_auth_token)] none

/-- Rust `str::split('/')` on a character list: the (possibly empty) segments
between separators; the empty string yields one empty segment, exactly as
Rust's `split` iterator does. -/
def splitOnChar (sep : Char) : List Char → List (List Char)
  | [] => [[]]
  | c :: cs =>
    match splitOnChar sep cs with
    | [] => [[]]
    | seg :: segs => if c = sep then [] :: seg :: segs else (c :: seg) :: segs

/-- Rust `str::contains(pat)`: some contiguous substring equals the pattern. -/
def strContainsSubstr (s pat : String) : Bool :=
  (List.range (s.data.length + 1)).any
    (fun i => ((s.data.drop i).take pat.data.length) == pat.data)

/-- `parse_account_id_from_url` from `auth/src/genesysgo_auth.rs`: reject URLs
without the `genesysgo` hostname fragment, then return the last
`/`-delimited piece. -/
def parse_account_id_from_url (genesysgo_url : String) : Except String String :=
  if !strContainsSubstr genesysgo_url "genesysgo" then
    .error "Not a genesysgo URL, cannot infer Account ID"
  else
    match (splitOnChar '/' genesysgo_url.data).getLast? with
    | none => .error ("Could not parse genesysgo url: " ++ genesysgo_url)
    | some last => .ok (String.mk last)

/-! ### Helper lemmas about the auth handshake strings -/

theorem escJsonChar_alphabet : ∀ c ∈ BASE58_ALPHABET, escJsonChar c = [c] := by
  decide

theorem escJsonChar_one : escJsonChar '1' = ['1'] := by decide

theorem escJsonChar_space : escJsonChar ' ' = [' '] := by decide

theorem escJsonChar_getD (d : Nat) :
    escJsonChar (BASE58_ALPHABET.getD d ' ') = [BASE58_ALPHABET.getD d ' '] := by
  rcases Nat.lt_or_ge d BASE58_ALPHABET.length with h | h
  · rw [List.getD_eq_getElem _ _ h]
    exact escJsonChar_alphabet _ (List.getElem_mem h)
  · rw [List.getD_eq_default _ _ h]
    exact escJsonChar_space

theorem flatten_map_escJsonChar (l : List Char) (h : ∀ c ∈ l, escJsonChar c = [c]) :
    (l.map escJsonChar).flatten = l := by
  induction l with
  | nil => rfl
  | cons c cs ih =>
      simp only [List.map_cons, List.flatten_cons, h c (by simp),
        ih (fun x hx => h x (by simp [hx]))]
      rfl

theorem escJson_bs58 (bytes : List Nat) : escJson (bs58_encode bytes) = bs58_encode bytes := by
  unfold escJson bs58_encode
  congr 1
  apply flatten_map_escJsonChar
  intro c hc
  rcases List.mem_append.mp hc with hc | hc
  · rw [List.eq_of_mem_replicate hc]
    exact escJsonChar_one
  · rcases List.mem_map.mp hc with ⟨d, _, rfl⟩
    exact escJsonChar_getD d

theorem splitOnChar_ne_nil (sep : Char) (l : List Char) : splitOnChar sep l ≠ [] := by
  cases l with
  | nil => simp [splitOnChar]
  | cons c cs =>
      simp only [splitOnChar]
      match h : splitOnChar sep cs with
      | [] => simp
      | seg :: segs =>
          by_cases hc : c = sep <;> simp [hc]

theorem splitOnChar_no_sep (sep : Char) (l : List Char) (h : sep ∉ l) :
    splitOnChar sep l = [l] := by
  induction l with
  | nil => rfl
  | cons c cs ih =>
      have hc : c ≠ sep := fun hc => h (hc ▸ List.mem_cons_self c cs)
      have hcs : sep ∉ cs := fun hm => h (List.mem_cons_of_mem _ hm)
      simp only [splitOnChar, ih hcs]
      simp [hc]

/-! ### Settling the claims: the auth handshake (C5, C6, C7) -/

/-- C5: for every signer, step 1's request body is the deterministic JSON
object `{"message": base58(signature over the fixed challenge
"Sign in to GenesysGo Shadow Platform."), "signer": base58(public key)}`,
byte-for-byte; and step 2's request always carries
`Authorization: Bearer <step-1 token>` and targets `token/{account_id}`. -/
theorem C5_auth_requests (w : Wallet) (account_id step_1_auth_token : String) :
    genesysgo_portal_auth_request w
      = HttpRequest.mk PORTAL_SIGNIN_URL [("Content-Type", "application/json")]
          (some ("\x7b\"message\":"
            ++ ("\"" ++ bs58_encode (toBytesLE 64 (mkSig w.pk (strBytes SIGNIN_MSG))) ++ "\"")
            ++ ",\"signer\":" ++ ("\"" ++ bs58_encode (toBytesLE 32 w.pk) ++ "\"") ++ "\x7d"))
    ∧ SIGNIN_MSG = "Sign in to GenesysGo Shadow Platform."
    ∧ ("Authorization", "Bearer " ++ step_1_auth_token)
        ∈ (genesysgo_rpc_auth_request account_id step_1_auth_token).headers
    ∧ (genesysgo_rpc_auth_request account_id step_1_auth_token).url
        = "https://portal.genesysgo.net/api/premium/token/" ++ account_id := by
  refine ⟨?_, rfl, by simp [genesysgo_rpc_auth_request], ?_⟩
  · unfold genesysgo_portal_auth_request GenesysGoAuth.to_json_string jsonStrLit
    rw [Wallet.sign_message, pubkeyToString, escJson_bs58, escJson_bs58]
  · show RPC_SIGNIN_URL ++ "/" ++ account_id = _
    have h : RPC_SIGNIN_URL ++ "/" = "https://portal.genesysgo.net/api/premium/token/" := by
      decide
    rw [h]

/-- C6: `parse_account_id_from_url` returns the last `/`-delimited segment of
any URL containing the hostname fragment `genesysgo` (in particular
`"https://example.genesysgo.net/abc123" ↦ "abc123"`), and fails with the
explicit not-a-genesysgo-URL error on every input without the fragment. -/
theorem C6_parse_account_id (s bad : String)
    (hs : strContainsSubstr s "genesysgo" = true)
    (hbad : strContainsSubstr bad "genesysgo" = false) :
    parse_account_id_from_url "https://example.genesysgo.net/abc123" = .ok "abc123"
    ∧ parse_account_id_from_url s = .ok (String.mk ((splitOnChar '/' s.data).getLastD []))
    ∧ parse_account_id_from_url bad
        = .error "Not a genesysgo URL, cannot infer Account ID" := by
  refine ⟨by rfl, ?_, by simp [parse_account_id_from_url, hbad]⟩
  unfold parse_account_id_from_url
  rw [hs]
  have hne := splitOnChar_ne_nil '/' s.data
  obtain ⟨x, hx⟩ := Option.isSome_iff_exists.mp (List.getLast?_isSome.mpr hne)
  rw [hx]
  simp only [Bool.not_true, Bool.false_eq_true, if_false]
  have : (splitOnChar '/' s.data).getLastD [] = x := by
    rw [List.getLastD_eq_getLast?, hx]
    rfl
  rw [this]

/-- C7 counterexample: a URL that contains the hostname fragment but has no
path segments does NOT fail — `parse_account_id_from_url` returns the host
part, because Rust's `split('/').last()` always yields at least one piece. -/
theorem C7_counterexample :
    parse_account_id_from_url "https://ssc-dao.genesysgo.net"
      = .ok "ssc-dao.genesysgo.net" := by
  rfl

/-- C7 amended: for every input URL containing the recognized hostname
fragment, `parse_account_id_from_url` never fails: it returns the substring
after the last `/` — the whole string when the URL has no `/` at all (no path
segments); the function's no-segment error branch is unreachable. -/
theorem C7_amended (s : String) (hs : strContainsSubstr s "genesysgo" = true) :
    (∃ seg, parse_account_id_from_url s = .ok seg)
    ∧ ('/' ∉ s.data → parse_account_id_from_url s = .ok s) := by
  constructor
  · unfold parse_account_id_from_url
    rw [hs]
    obtain ⟨x, hx⟩ := Option.isSome_iff_exists.mp
      (List.getLast?_isSome.mpr (splitOnChar_ne_nil '/' s.data))
    rw [hx]
    exact ⟨String.mk x, by simp⟩
  · intro hsl
    unfold parse_account_id_from_url
    rw [hs, splitOnChar_no_sep '/' s.data hsl]
    rfl

/-- C6 witness: the theorem applied at the spec's two example URLs. -/
theorem C6_parse_account_id_witness :
    strContainsSubstr "https://example.genesysgo.net/abc123" "genesysgo" = true
    ∧ strContainsSubstr "https://example.com/abc" "genesysgo" = false
    ∧ (parse_account_id_from_url "https://example.genesysgo.net/abc123" = .ok "abc123"
      ∧ parse_account_id_from_url "https://example.genesysgo.net/abc123"
          = .ok (String.mk
              ((splitOnChar '/' ("https://example.genesysgo.net/abc123" : String).data).getLastD []))
      ∧ parse_account_id_from_url "https://example.com/abc"
          = .error "Not a genesysgo URL, cannot infer Account ID") :=
  ⟨rfl, rfl, C6_parse_account_id _ _ rfl rfl⟩

/-- C7 amended witness: a fragment-containing input with no `/` at all maps to
itself. -/
theorem C7_amended_witness :
    strContainsSubstr "genesysgo" "genesysgo" = true
    ∧ ('/' ∉ ("genesysgo" : String).data)
    ∧ parse_account_id_from_url "genesysgo" = .ok "genesysgo" :=
  ⟨rfl, by decide, (C7_amended "genesysgo" rfl).2 (by decide)⟩

/-! ### Settling the claims: the add-immutable-storage pipeline -/

/-- C1: whenever the user-info account exists and the storage account resolves
to either variant with `immutable == false` (the size having passed the u64
conversion that precedes the checks), `add_immutable_storage` fails with
`StorageAccountIsNotImmutable` — identically for V1 and V2 — and no
transaction is ever posted to the coordinator. -/
theorem C1_not_immutable_rejected (w : Wallet) (env : Env) (storage_account_key : Nat)
    (size : Byte) (acct : StorageAcct)
    (hsize : size.get_bytes < 2 ^ 64)
    (hui : env.user_info_account = .ok ())
    (hacct : env.storage_account = .ok acct)
    (himm : acct.immutableFlag = false) :
    (add_immutable_storage w env storage_account_key size).1
        = .error .StorageAccountIsNotImmutable
    ∧ ∀ uri txn, NetAction.postTransaction uri txn
        ∉ (add_immutable_storage w env storage_account_key size).2 := by
  have hconv : size_as_bytes_u64 size = .ok size.get_bytes := by
    unfold size_as_bytes_u64
    rw [if_pos hsize]
  cases acct with
  | V1 a =>
      simp only [StorageAcct.immutableFlag] at himm
      constructor
      · simp [add_immutable_storage, hconv, hui, hacct, himm]
      · intro uri txn
        simp [add_immutable_storage, hconv, hui, hacct, himm]
  | V2 a =>
      simp only [StorageAcct.immutableFlag] at himm
      constructor
      · simp [add_immutable_storage, hconv, hui, hacct, himm]
      · intro uri txn
        simp [add_immutable_storage, hconv, hui, hacct, himm]

/-- C1 witness: a V2 account with `immutable == false` in a fully concrete
environment. -/
theorem C1_not_immutable_rejected_witness :
    (Byte.mk 5).get_bytes < 2 ^ 64
    ∧ ((add_immutable_storage (Wallet.mk 1 none)
          (Env.mk (.ok ()) (.ok (.V2 (StorageAccountV2.mk false 3 4 0 0 0))) (.ok 7)
            (.ok (HttpResponse.mk 200 (some (.obj [("message", .str "ok")])))))
          2 (Byte.mk 5)).1
        = .error .StorageAccountIsNotImmutable
      ∧ ∀ uri txn, NetAction.postTransaction uri txn
          ∉ (add_immutable_storage (Wallet.mk 1 none)
              (Env.mk (.ok ()) (.ok (.V2 (StorageAccountV2.mk false 3 4 0 0 0))) (.ok 7)
                (.ok (HttpResponse.mk 200 (some (.obj [("message", .str "ok")])))))
              2 (Byte.mk 5)).2) :=
  ⟨by decide,
   C1_not_immutable_rejected _ _ 2 _ (.V2 (StorageAccountV2.mk false 3 4 0 0 0))
     (by decide) rfl rfl rfl⟩

/-- C2: a coordinator response with a non-2xx status and a JSON body becomes
`ShadowDriveServerError{status, message}` with the original status and the
parsed body, both for `get_object_data` and for `send_shdw_txn` — an error
distinct from the decode/transport errors. -/
theorem C2_server_error_preserved (status : Nat) (j : Json) (location uri txn : String)
    (hstatus : statusIsSuccess status = false) :
    get_object_data (.ok (HttpResponse.mk status (some j))) location
        = .error (.ShadowDriveServerError status j)
    ∧ (send_shdw_txn (.ok (HttpResponse.mk status (some j))) uri txn).1
        = .error (.ShadowDriveServerError status j)
    ∧ (∀ s, Error.ShadowDriveServerError status j ≠ .ReqwestError s)
    ∧ (∀ s, Error.ShadowDriveServerError status j ≠ .InvalidJson s) := by
  refine ⟨?_, ?_, fun s h => Error.noConfusion h, fun s h => Error.noConfusion h⟩
  · simp [get_object_data, hstatus]
  · simp [send_shdw_txn, hstatus]

/-- C2 witness: the spec's mock — HTTP 400 with body `{"error":"x"}`. -/
theorem C2_server_error_preserved_witness :
    statusIsSuccess 400 = false
    ∧ (get_object_data (.ok (HttpResponse.mk 400 (some (.obj [("error", .str "x")]))))
          "file.txt"
        = .error (.ShadowDriveServerError 400 (.obj [("error", .str "x")]))
      ∧ (send_shdw_txn (.ok (HttpResponse.mk 400 (some (.obj [("error", .str "x")]))))
          "add-storage" "dHhu").1
        = .error (.ShadowDriveServerError 400 (.obj [("error", .str "x")]))
      ∧ (∀ s, Error.ShadowDriveServerError 400 (.obj [("error", .str "x")]) ≠ .ReqwestError s)
      ∧ (∀ s, Error.ShadowDriveServerError 400 (.obj [("error", .str "x")]) ≠ .InvalidJson s)) :=
  ⟨rfl, C2_server_error_preserved 400 (.obj [("error", .str "x")]) "file.txt" "add-storage"
    "dHhu" rfl⟩

/-- C3: `add_immutable_storage` checks the user-info account first (the only
network interaction performed is that read); the RPC error shape
`RpcError::ForUser` — how `get_account` reports a missing account — yields
`UserInfoNotCreated`, while every other RPC error on that check propagates as
the transport error wrapping it, never as `UserInfoNotCreated`. -/
theorem C3_user_info_check (w : Wallet) (env : Env) (storage_account_key : Nat)
    (size : Byte) (ce : ClientError)
    (hsize : size.get_bytes < 2 ^ 64)
    (hui : env.user_info_account = .error ce) :
    ((∃ s, ce.kind = .RpcError (.ForUser s)) →
      (add_immutable_storage w env storage_account_key size).1 = .error .UserInfoNotCreated)
    ∧ ((∀ s, ce.kind ≠ .RpcError (.ForUser s)) →
      (add_immutable_storage w env storage_account_key size).1 = .error (.SolanaRpcError ce)
      ∧ (add_immutable_storage w env storage_account_key size).1
          ≠ .error .UserInfoNotCreated)
    ∧ (add_immutable_storage w env storage_account_key size).2
        = [.getAccount (user_info w.pk).1] := by
  have hconv : size_as_bytes_u64 size = .ok size.get_bytes := by
    unfold size_as_bytes_u64
    rw [if_pos hsize]
  obtain ⟨kind⟩ := ce
  refine ⟨?_, ?_, ?_⟩
  · rintro ⟨s, hk⟩
    simp only [] at hk
    subst hk
    simp [add_immutable_storage, hconv, hui]
  · intro hne
    match kind with
    | .RpcError (.ForUser s) => exact absurd rfl (hne s)
    | .RpcError (.RpcRequestError s) =>
        refine ⟨by simp [add_immutable_storage, hconv, hui, Error.fromClientError], ?_⟩
        simp [add_immutable_storage, hconv, hui, Error.fromClientError]
    | .Io s =>
        refine ⟨by simp [add_immutable_storage, hconv, hui, Error.fromClientError], ?_⟩
        simp [add_immutable_storage, hconv, hui, Error.fromClientError]
    | .Custom s =>
        refine ⟨by simp [add_immutable_storage, hconv, hui, Error.fromClientError], ?_⟩
        simp [add_immutable_storage, hconv, hui, Error.fromClientError]
  · match kind with
    | .RpcError (.ForUser s) => simp [add_immutable_storage, hconv, hui]
    | .RpcError (.RpcRequestError s) => simp [add_immutable_storage, hconv, hui]
    | .Io s => simp [add_immutable_storage, hconv, hui]
    | .Custom s => simp [add_immutable_storage, hconv, hui]

/-- C3 witness: the missing-account error shape yields `UserInfoNotCreated`,
and an I/O transport error propagates wrapped. -/
theorem C3_user_info_check_witness :
    ((Byte.mk 5).get_bytes < 2 ^ 64
      ∧ (add_immutable_storage (Wallet.mk 1 none)
          (Env.mk (.error (ClientError.mk (.RpcError (.ForUser "not found"))))
            (.ok (.V1 (StorageAccount.mk true 3 4 0 0 0))) (.ok 7)
            (.ok (HttpResponse.mk 200 none)))
          2 (Byte.mk 5)).1 = .error .UserInfoNotCreated)
    ∧ ((add_immutable_storage (Wallet.mk 1 none)
          (Env.mk (.error (ClientError.mk (.Io "timeout")))
            (.ok (.V1 (StorageAccount.mk true 3 4 0 0 0))) (.ok 7)
            (.ok (HttpResponse.mk 200 none)))
          2 (Byte.mk 5)).1
        = .error (.SolanaRpcError (ClientError.mk (.Io "timeout")))) :=
  ⟨⟨by decide,
    (C3_user_info_check (Wallet.mk 1 none) _ 2 (Byte.mk 5)
      (ClientError.mk (.RpcError (.ForUser "not found"))) (by decide) rfl).1
      ⟨"not found", rfl⟩⟩,
   ((C3_user_info_check (Wallet.mk 1 none) _ 2 (Byte.mk 5)
      (ClientError.mk (.Io "timeout")) (by decide) rfl).2.1
      (fun s h => ClientErrorKind.noConfusion h)).1⟩

/-- C4 counterexample: a size of `1 TB` — a unit suffix other than KB/MB/GB —
is NOT rejected with `InvalidStorage`: the call converts it to `10^12` bytes,
performs the user-info and storage-account network reads, and fails only the
immutability precondition. -/
theorem C4_counterexample :
    size_as_bytes_u64 (Byte.from_unit 1 .TB) = .ok 1000000000000
    ∧ (add_immutable_storage (Wallet.mk 1 none)
        (Env.mk (.ok ()) (.ok (.V1 (StorageAccount.mk false 3 4 0 0 0))) (.ok 7)
          (.ok (HttpResponse.mk 400 none))) 2 (Byte.from_unit 1 .TB)).1
        = .error .StorageAccountIsNotImmutable
    ∧ (add_immutable_storage (Wallet.mk 1 none)
        (Env.mk (.ok ()) (.ok (.V1 (StorageAccount.mk false 3 4 0 0 0))) (.ok 7)
          (.ok (HttpResponse.mk 400 none))) 2 (Byte.from_unit 1 .TB)).2
        = [.getAccount (user_info 1).1, .getStorageAccount 2] := by
  refine ⟨?_, ?_, ?_⟩ <;> rfl

/-- C4 amended: the unit suffix is never examined. Any size converts to its
exact total byte count (`value * factor`) whenever that count fits in a
`u64` — KB/MB/GB sizes in particular convert exactly (factors `10^3`, `10^6`,
`10^9`) and the count becomes the `additional_storage` instruction argument —
while a size whose byte count exceeds `u64::MAX` fails with `InvalidStorage`
before any network call, whatever its unit. -/
theorem C4_amended (w : Wallet) (env : Env) (storage_account_key : Nat)
    (acct : StorageAccount) (value : Nat) (unit : ByteUnit) :
    (Byte.from_unit value unit).get_bytes = value * unit.factor
    ∧ ByteUnit.KB.factor = 1000 ∧ ByteUnit.MB.factor = 1000000
    ∧ ByteUnit.GB.factor = 1000000000
    ∧ (value * unit.factor < 2 ^ 64 →
        size_as_bytes_u64 (Byte.from_unit value unit) = .ok (value * unit.factor)
        ∧ (add_immutable_storage_ix_v1 w.pk storage_account_key acct
            (value * unit.factor)).data
          = INCREASE_IMMUTABLE_STORAGE_DISC ++ toBytesLE 8 (value * unit.factor))
    ∧ (2 ^ 64 ≤ value * unit.factor →
        add_immutable_storage w env storage_account_key (Byte.from_unit value unit)
          = (.error .InvalidStorage, [])) := by
  refine ⟨rfl, rfl, rfl, rfl, fun h => ⟨?_, rfl⟩, fun h => ?_⟩
  · have hlt : (Byte.from_unit value unit).get_bytes < 2 ^ 64 := h
    unfold size_as_bytes_u64
    rw [if_pos hlt]
    rfl
  · have hlt : ¬ (Byte.from_unit value unit).get_bytes < 2 ^ 64 := Nat.not_lt.mpr h
    unfold add_immutable_storage size_as_bytes_u64
    rw [if_neg hlt]

/-- C4 amended witness: `1 TB` converts exactly; `2^64 B` is rejected with
`InvalidStorage` and no network action. -/
theorem C4_amended_witness :
    (1 * ByteUnit.TB.factor < 2 ^ 64
      ∧ size_as_bytes_u64 (Byte.from_unit 1 .TB) = .ok (1 * ByteUnit.TB.factor))
    ∧ (2 ^ 64 ≤ 2 ^ 64 * ByteUnit.B.factor
      ∧ add_immutable_storage (Wallet.mk 1 none)
          (Env.mk (.ok ()) (.ok (.V1 (StorageAccount.mk false 3 4 0 0 0))) (.ok 7)
            (.ok (HttpResponse.mk 400 none)))
          2 (Byte.from_unit (2 ^ 64) .B)
        = (.error .InvalidStorage, [])) :=
  ⟨⟨by decide,
    ((C4_amended (Wallet.mk 1 none)
      (Env.mk (.ok ()) (.ok (.V1 (StorageAccount.mk false 3 4 0 0 0))) (.ok 7)
        (.ok (HttpResponse.mk 400 none)))
      2 (StorageAccount.mk false 3 4 0 0 0) 1 .TB).2.2.2.2.1 (by decide)).1⟩,
   ⟨by decide,
    (C4_amended (Wallet.mk 1 none)
      (Env.mk (.ok ()) (.ok (.V1 (StorageAccount.mk false 3 4 0 0 0))) (.ok 7)
        (.ok (HttpResponse.mk 400 none)))
      2 (StorageAccount.mk false 3 4 0 0 0) (2 ^ 64) .B).2.2.2.2.2 (by decide)⟩⟩

/-- C8: a signing failure in the add-immutable-storage pipeline surfaces as
`TransactionSerializationFailed` carrying the underlying cause, a constructor
distinct from every network-failure error. -/
theorem C8_signing_failure (w : Wallet) (env : Env) (storage_account_key : Nat)
    (size : Byte) (acct : StorageAcct) (e : SignerError) (blockhash : Nat)
    (hsize : size.get_bytes < 2 ^ 64)
    (hui : env.user_info_account = .ok ())
    (hacct : env.storage_account = .ok acct)
    (himm : acct.immutableFlag = true)
    (hbh : env.latest_blockhash = .ok blockhash)
    (hsign : w.signError = some e) :
    (add_immutable_storage w env storage_account_key size).1
        = .error (.TransactionSerializationFailed (formatSignerError e))
    ∧ (∀ ce, Error.TransactionSerializationFailed (formatSignerError e) ≠ .SolanaRpcError ce)
    ∧ (∀ s, Error.TransactionSerializationFailed (formatSignerError e) ≠ .ReqwestError s)
    ∧ (∀ st j, Error.TransactionSerializationFailed (formatSignerError e)
        ≠ .ShadowDriveServerError st j) := by
  have hconv : size_as_bytes_u64 size = .ok size.get_bytes := by
    unfold size_as_bytes_u64
    rw [if_pos hsize]
  refine ⟨?_, fun ce h => Error.noConfusion h, fun s h => Error.noConfusion h,
    fun st j h => Error.noConfusion h⟩
  cases acct with
  | V1 a =>
      simp only [StorageAcct.immutableFlag] at himm
      simp [add_immutable_storage, hconv, hui, hacct, himm, add_immutable_storage_v1,
        hbh, try_partial_sign, Wallet.try_sign_message, hsign, Error.fromSignerError]
  | V2 a =>
      simp only [StorageAcct.immutableFlag] at himm
      simp [add_immutable_storage, hconv, hui, hacct, himm, add_immutable_storage_v2,
        hbh, try_partial_sign, Wallet.try_sign_message, hsign, Error.fromSignerError]

/-- C8 witness: a wallet whose key reports a signing failure. -/
theorem C8_signing_failure_witness :
    (Byte.mk 5).get_bytes < 2 ^ 64
    ∧ (add_immutable_storage (Wallet.mk 1 (some (.custom "boom")))
        (Env.mk (.ok ()) (.ok (.V1 (StorageAccount.mk true 3 4 0 0 0))) (.ok 7)
          (.ok (HttpResponse.mk 200 none)))
        2 (Byte.mk 5)).1
      = .error (.TransactionSerializationFailed (formatSignerError (.custom "boom"))) :=
  ⟨by decide,
   (C8_signing_failure (Wallet.mk 1 (some (.custom "boom"))) _ 2 (Byte.mk 5)
     (.V1 (StorageAccount.mk true 3 4 0 0 0)) (.custom "boom") 7
     (by decide) rfl rfl rfl rfl rfl).1⟩

/-- C10: the V2 instruction builder references the account's first owner
(`owner_1`) only — its account list is exactly the nine fixed references with
`owner_1` in the owner slot, the built instruction does not depend on
`owner_2` at all, and the V2 account list coincides with the V1 account list
for the same `owner_1`. -/
theorem C10_v2_owner1_only (wallet_pubkey storage_account_key size_as_bytes : Nat)
    (acct : StorageAccountV2) :
    (add_immutable_storage_ix_v2 wallet_pubkey storage_account_key acct size_as_bytes).accounts
      = [⟨STORAGE_CONFIG_PDA, false, true⟩, ⟨storage_account_key, false, true⟩,
         ⟨get_associated_token_address EMISSIONS TOKEN_MINT, false, true⟩,
         ⟨acct.owner_1, true, true⟩,
         ⟨get_associated_token_address wallet_pubkey TOKEN_MINT, false, true⟩,
         ⟨UPLOADER, true, false⟩, ⟨TOKEN_MINT, false, false⟩,
         ⟨SYSTEM_PROGRAM_ID, false, false⟩, ⟨TOKEN_PROGRAM_ID, false, false⟩]
    ∧ (∀ x, add_immutable_storage_ix_v2 wallet_pubkey storage_account_key
          { acct with owner_2 := x } size_as_bytes
        = add_immutable_storage_ix_v2 wallet_pubkey storage_account_key acct size_as_bytes)
    ∧ (∀ acct1 : StorageAccount, acct1.owner_1 = acct.owner_1 →
        (add_immutable_storage_ix_v1 wallet_pubkey storage_account_key acct1
            size_as_bytes).accounts
          = (add_immutable_storage_ix_v2 wallet_pubkey storage_account_key acct
              size_as_bytes).accounts) := by
  refine ⟨rfl, fun x => rfl, fun acct1 h => ?_⟩
  simp [add_immutable_storage_ix_v1, add_immutable_storage_ix_v2,
    IncreaseImmutableStorageV1Accounts.to_account_metas,
    IncreaseImmutableStorageV2Accounts.to_account_metas, h]

/-! ### The transaction-encode/decode roundtrip (C9) -/

theorem ata_lt (a b : Nat) : get_associated_token_address a b < 256 ^ 32 :=
  Nat.mod_lt _ (by positivity)

theorem user_info_lt (wallet : Nat) : (user_info wallet).1 < 256 ^ 32 :=
  Nat.mod_lt _ (by positivity)

theorem swKeys_cons (payer : Nat) (ixs : List Instruction) :
    ∃ tail, swKeys payer ixs = payer :: tail := by
  have h1 : uniqueKeysAux [] (ixCandidates payer ixs)
      = payer :: uniqueKeysAux [payer]
          ((ixMetas ixs).map (·.pubkey) ++ ixs.map (·.program_id)) := by
    simp [ixCandidates, uniqueKeysAux]
  refine ⟨(uniqueKeysAux [payer] ((ixMetas ixs).map (·.pubkey)
      ++ ixs.map (·.program_id))).filter
    (fun k => isSignerKey payer (ixMetas ixs) k && isWritableKey payer (ixMetas ixs) k), ?_⟩
  unfold swKeys
  rw [h1]
  exact List.filter_cons_of_pos (by simp [isSignerKey, isWritableKey])

/-- Well-formedness of the transaction the signing pipeline constructs, from
bounds on its ingredients. -/
theorem pipeline_wf (w : Wallet) (ix : Instruction) (blockhash : Nat)
    (hkeysmem : ∀ k ∈ (compileKeys w.pk [ix]).1, k < 256 ^ 32)
    (hklen : (compileKeys w.pk [ix]).1.length < 256)
    (hnreqlt : (compileKeys w.pk [ix]).2.num_required_signatures < 256)
    (hsrlt : (compileKeys w.pk [ix]).2.num_readonly_signed_accounts < 256)
    (hurlt : (compileKeys w.pk [ix]).2.num_readonly_unsigned_accounts < 256)
    (hbh : blockhash < 256 ^ 32)
    (hdata : ∀ b ∈ ix.data, b < 256)
    (hdatalen : ix.data.length < 0x10000)
    (hacclen : ix.accounts.length < 0x10000)
    (hpidmem : ix.program_id ∈ (compileKeys w.pk [ix]).1)
    (haccmem : ∀ m ∈ ix.accounts, m.pubkey ∈ (compileKeys w.pk [ix]).1) :
    wfTransaction
      ⟨(List.range (compileMessage w.pk [ix] blockhash).header.num_required_signatures).map
        (fun i => if (compileMessage w.pk [ix] blockhash).account_keys[i]? = some w.pk
          then mkSig w.pk (serializeMessage (compileMessage w.pk [ix] blockhash)) else 0),
       compileMessage w.pk [ix] blockhash⟩ := by
  refine ⟨?_, ?_, ?_, ?_, ?_, ?_, ?_, ?_, ?_, ?_⟩
  · simp only [List.length_map, List.length_range]
    show (compileKeys w.pk [ix]).2.num_required_signatures < 0x10000
    omega
  · intro s hs
    rcases List.mem_map.mp hs with ⟨i, _, rfl⟩
    by_cases hc : (compileMessage w.pk [ix] blockhash).account_keys[i]? = some w.pk
    · simpa [hc] using mkSig_lt w.pk (serializeMessage (compileMessage w.pk [ix] blockhash))
    · simp only [hc, if_false]
      positivity
  · exact hnreqlt
  · exact hsrlt
  · exact hurlt
  · show (compileKeys w.pk [ix]).1.length < 0x10000
    omega
  · exact hkeysmem
  · exact hbh
  · show ([ix].map (compileInstruction (compileKeys w.pk [ix]).1)).length < 0x10000
    simp
  · intro ci hci
    have hci' : ci = compileInstruction (compileKeys w.pk [ix]).1 ix := by
      simpa [compileMessage] using hci
    subst hci'
    refine ⟨?_, ?_, ?_, ?_, ?_⟩
    · exact lt_trans (indexOf_lt_length_of_mem hpidmem) hklen
    · show (ix.accounts.map _).length < 0x10000
      simpa using hacclen
    · intro a ha
      rcases List.mem_map.mp ha with ⟨m, hm, rfl⟩
      exact lt_trans (indexOf_lt_length_of_mem (haccmem m hm)) hklen
    · exact hdatalen
    · exact hdata

/-- Core pipeline lemma: partially signing any single-instruction transaction
with the wallet as fee payer yields a transaction whose bincode serialization
(all bytes genuine bytes) decodes back to itself, whose key table starts with
the fee payer, whose blockhash is the one fetched, whose compiled instruction
decompiles to the original program id / account addresses / data, and whose
first signature slot holds a signature the wallet's key verifies over the
serialized message. -/
theorem try_partial_sign_roundtrip (w : Wallet) (ix : Instruction) (blockhash : Nat)
    (hw : w.signError = none)
    (hkeys : ∀ k ∈ ixCandidates w.pk [ix], k < 256 ^ 32)
    (hlen : 4 * (ixCandidates w.pk [ix]).length < 256)
    (hbh : blockhash < 256 ^ 32)
    (hdata : ∀ b ∈ ix.data, b < 256)
    (hdatalen : ix.data.length < 0x10000)
    (hacclen : ix.accounts.length < 0x10000) :
    ∃ txn : Transaction,
      try_partial_sign w w.pk [ix] blockhash = .ok txn
      ∧ base64_decode (base64_encode (serializeTransaction txn))
          = some (serializeTransaction txn)
      ∧ decodeTransaction (serializeTransaction txn) = some (txn, [])
      ∧ txn.message.account_keys.head? = some w.pk
      ∧ txn.message.recent_blockhash = blockhash
      ∧ txn.message.instructions.map (decompileInstruction txn.message.account_keys)
          = [some (ix.program_id, ix.accounts.map (·.pubkey), ix.data)]
      ∧ ∃ sig, txn.signatures.head? = some sig
          ∧ verifySig w.pk (serializeMessage txn.message) sig = true := by
  have hkeysmem : ∀ k ∈ (compileKeys w.pk [ix]).1, k < 256 ^ 32 := by
    intro k hk
    exact hkeys k (mem_of_mem_uniqueKeysAux ((mem_compileKeys_iff w.pk [ix] k).mp hk))
  have hklen : (compileKeys w.pk [ix]).1.length < 256 :=
    lt_of_le_of_lt (compileKeys_length_le w.pk [ix]) hlen
  obtain ⟨swt, hsw⟩ := swKeys_cons w.pk [ix]
  have hhead : (compileKeys w.pk [ix]).1.head? = some w.pk := compileKeys_head w.pk [ix]
  have hkeyssum : (compileKeys w.pk [ix]).1.length
      = (swKeys w.pk [ix]).length + (srKeys w.pk [ix]).length
        + (uwKeys w.pk [ix]).length + (urKeys w.pk [ix]).length := by
    simp [compileKeys]
    omega
  have hswpos : 0 < (swKeys w.pk [ix]).length := by
    rw [hsw]
    simp
  have hnreq : (compileKeys w.pk [ix]).2.num_required_signatures
      = (swKeys w.pk [ix]).length + (srKeys w.pk [ix]).length := rfl
  have hsr : (compileKeys w.pk [ix]).2.num_readonly_signed_accounts
      = (srKeys w.pk [ix]).length := rfl
  have hur : (compileKeys w.pk [ix]).2.num_readonly_unsigned_accounts
      = (urKeys w.pk [ix]).length := rfl
  have hnreqpos : 0 < (compileKeys w.pk [ix]).2.num_required_signatures := by
    rw [hnreq]
    omega
  have hnreqlt : (compileKeys w.pk [ix]).2.num_required_signatures < 256 := by
    rw [hnreq]
    omega
  have hsrlt : (compileKeys w.pk [ix]).2.num_readonly_signed_accounts < 256 := by
    rw [hsr]
    omega
  have hurlt : (compileKeys w.pk [ix]).2.num_readonly_unsigned_accounts < 256 := by
    rw [hur]
    omega
  have hpidmem : ix.program_id ∈ (compileKeys w.pk [ix]).1 := by
    apply mem_compileKeys_of_mem_candidates
    simp [ixCandidates]
  have haccmem : ∀ m ∈ ix.accounts, m.pubkey ∈ (compileKeys w.pk [ix]).1 := by
    intro m hm
    apply mem_compileKeys_of_mem_candidates
    simp only [ixCandidates, ixMetas, List.map_cons, List.map_nil, List.flatten_cons,
      List.flatten_nil, List.append_nil, List.mem_cons, List.mem_append, List.mem_map]
    exact .inr (.inl ⟨m, hm, rfl⟩)
  have hkeys0 : (compileKeys w.pk [ix]).1[0]? = some w.pk := by
    rw [← List.head?_eq_getElem?]
    exact hhead
  refine ⟨⟨(List.range (compileMessage w.pk [ix] blockhash).header.num_required_signatures).map
      (fun i => if (compileMessage w.pk [ix] blockhash).account_keys[i]? = some w.pk
        then mkSig w.pk (serializeMessage (compileMessage w.pk [ix] blockhash)) else 0),
    compileMessage w.pk [ix] blockhash⟩, ?_, ?_, ?_, ?_, ?_, ?_, ?_⟩
  case _ =>
    unfold try_partial_sign Wallet.try_sign_message
    rw [hw]
  case _ =>
    apply base64_decode_encode
    apply serializeTransaction_lt
    exact pipeline_wf w ix blockhash hkeysmem hklen hnreqlt hsrlt hurlt hbh hdata hdatalen
      hacclen hpidmem haccmem
  case _ =>
    apply decodeTransaction_serialize
    exact pipeline_wf w ix blockhash hkeysmem hklen hnreqlt hsrlt hurlt hbh hdata hdatalen
      hacclen hpidmem haccmem
  case _ => exact hhead
  case _ => rfl
  case _ =>
    show [decompileInstruction (compileKeys w.pk [ix]).1
        (compileInstruction (compileKeys w.pk [ix]).1 ix)] = _
    rw [decompileInstruction_compile _ _ hpidmem haccmem]
  case _ =>
    obtain ⟨n, hn⟩ := Nat.exists_eq_add_of_lt hnreqpos
    refine ⟨mkSig w.pk (serializeMessage (compileMessage w.pk [ix] blockhash)), ?_, ?_⟩
    · show ((List.range (compileKeys w.pk [ix]).2.num_required_signatures).map
        (fun i => if (compileKeys w.pk [ix]).1[i]? = some w.pk
          then mkSig w.pk (serializeMessage (compileMessage w.pk [ix] blockhash))
          else 0)).head? = _
      rw [show (compileKeys w.pk [ix]).2.num_required_signatures = n + 1 by omega]
      rw [List.range_succ_eq_map]
      simp [hkeys0]
    · simp [verifySig]

/-- C9: every transaction built and signed by the add-immutable-storage
pipeline (V1 and V2 alike) is encoded as the base64 of its canonical bincode
serialization, and base64-decoding followed by bincode deserialization
recovers it: the instruction list (program id, account addresses, argument
data) via the key table, the exact fee payer (first account key), the
anti-replay blockhash used, and a valid wallet signature over the serialized
message containing them. -/
theorem C9_encode_decode_roundtrip (w : Wallet) (env : Env) (storage_account_key : Nat)
    (acctV1 : StorageAccount) (acctV2 : StorageAccountV2) (size_as_bytes blockhash : Nat)
    (hw : w.signError = none) (hpk : w.pk < 256 ^ 32)
    (hkey : storage_account_key < 256 ^ 32)
    (hown1 : acctV1.owner_1 < 256 ^ 32) (hown2 : acctV2.owner_1 < 256 ^ 32)
    (henv : env.latest_blockhash = .ok blockhash) (hbh : blockhash < 256 ^ 32) :
    (∃ txn : Transaction,
      (add_immutable_storage_v1 w env storage_account_key acctV1 size_as_bytes).1
          = .ok (base64_encode (serializeTransaction txn))
      ∧ base64_decode (base64_encode (serializeTransaction txn))
          = some (serializeTransaction txn)
      ∧ decodeTransaction (serializeTransaction txn) = some (txn, [])
      ∧ txn.message.account_keys.head? = some w.pk
      ∧ txn.message.recent_blockhash = blockhash
      ∧ txn.message.instructions.map (decompileInstruction txn.message.account_keys)
          = [some (PROGRAM_ADDRESS,
              (add_immutable_storage_ix_v1 w.pk storage_account_key acctV1
                size_as_bytes).accounts.map (·.pubkey),
              increaseImmutableStorageData size_as_bytes)]
      ∧ ∃ sig, txn.signatures.head? = some sig
          ∧ verifySig w.pk (serializeMessage txn.message) sig = true)
    ∧ (∃ txn : Transaction,
      (add_immutable_storage_v2 w env storage_account_key acctV2 size_as_bytes).1
          = .ok (base64_encode (serializeTransaction txn))
      ∧ base64_decode (base64_encode (serializeTransaction txn))
          = some (serializeTransaction txn)
      ∧ decodeTransaction (serializeTransaction txn) = some (txn, [])
      ∧ txn.message.account_keys.head? = some w.pk
      ∧ txn.message.recent_blockhash = blockhash
      ∧ txn.message.instructions.map (decompileInstruction txn.message.account_keys)
          = [some (PROGRAM_ADDRESS,
              (add_immutable_storage_ix_v2 w.pk storage_account_key acctV2
                size_as_bytes).accounts.map (·.pubkey),
              increaseImmutableStorage2Data size_as_bytes)]
      ∧ ∃ sig, txn.signatures.head? = some sig
          ∧ verifySig w.pk (serializeMessage txn.message) sig = true) := by
  constructor
  · have hkeysv1 : ∀ k ∈ ixCandidates w.pk
        [add_immutable_storage_ix_v1 w.pk storage_account_key acctV1 size_as_bytes],
        k < 256 ^ 32 := by
      intro k hk
      simp only [ixCandidates, ixMetas, add_immutable_storage_ix_v1,
        IncreaseImmutableStorageV1Accounts.to_account_metas, List.map_cons, List.map_nil,
        List.flatten_cons, List.flatten_nil, List.append_nil, List.mem_cons,
        List.mem_append, List.not_mem_nil, or_false] at hk
      rcases hk with h | (h | h | h | h | h | h | h | h | h) | h
      · rw [h]
        exact hpk
      · rw [h]
        decide
      · rw [h]
        exact hkey
      · rw [h]
        exact ata_lt _ _
      · rw [h]
        exact hown1
      · rw [h]
        exact ata_lt _ _
      · rw [h]
        decide
      · rw [h]
        decide
      · rw [h]
        decide
      · rw [h]
        decide
      · rw [h]
        decide
    have hlenv1 : 4 * (ixCandidates w.pk
        [add_immutable_storage_ix_v1 w.pk storage_account_key acctV1 size_as_bytes]).length
        < 256 := by
      norm_num [ixCandidates, ixMetas, add_immutable_storage_ix_v1,
        IncreaseImmutableStorageV1Accounts.to_account_metas]
    have hdatav1 : ∀ b ∈ (add_immutable_storage_ix_v1 w.pk storage_account_key acctV1
        size_as_bytes).data, b < 256 := by
      intro b hb
      simp only [add_immutable_storage_ix_v1, increaseImmutableStorageData,
        List.mem_append] at hb
      rcases hb with hb | hb
      · have hd : ∀ x ∈ INCREASE_IMMUTABLE_STORAGE_DISC, x < 256 := by decide
        exact hd b hb
      · exact toBytesLE_lt 8 _ b hb
    have hdlenv1 : (add_immutable_storage_ix_v1 w.pk storage_account_key acctV1
        size_as_bytes).data.length < 0x10000 := by
      norm_num [add_immutable_storage_ix_v1, increaseImmutableStorageData,
        INCREASE_IMMUTABLE_STORAGE_DISC, toBytesLE_length]
    have halenv1 : (add_immutable_storage_ix_v1 w.pk storage_account_key acctV1
        size_as_bytes).accounts.length < 0x10000 := by
      norm_num [add_immutable_storage_ix_v1,
        IncreaseImmutableStorageV1Accounts.to_account_metas]
    obtain ⟨txn, h1, h2, h3, h4, h5, h6, h7⟩ := try_partial_sign_roundtrip w
      (add_immutable_storage_ix_v1 w.pk storage_account_key acctV1 size_as_bytes) blockhash
      hw hkeysv1 hlenv1 hbh hdatav1 hdlenv1 halenv1
    refine ⟨txn, ?_, h2, h3, h4, h5, h6, h7⟩
    unfold add_immutable_storage_v1
    simp only [henv, h1, serialize_and_encode]
  · have hkeysv2 : ∀ k ∈ ixCandidates w.pk
        [add_immutable_storage_ix_v2 w.pk storage_account_key acctV2 size_as_bytes],
        k < 256 ^ 32 := by
      intro k hk
      simp only [ixCandidates, ixMetas, add_immutable_storage_ix_v2,
        IncreaseImmutableStorageV2Accounts.to_account_metas, List.map_cons, List.map_nil,
        List.flatten_cons, List.flatten_nil, List.append_nil, List.mem_cons,
        List.mem_append, List.not_mem_nil, or_false] at hk
      rcases hk with h | (h | h | h | h | h | h | h | h | h) | h
      · rw [h]
        exact hpk
      · rw [h]
        decide
      · rw [h]
        exact hkey
      · rw [h]
        exact ata_lt _ _
      · rw [h]
        exact hown2
      · rw [h]
        exact ata_lt _ _
      · rw [h]
        decide
      · rw [h]
        decide
      · rw [h]
        decide
      · rw [h]
        decide
      · rw [h]
        decide
    have hlenv2 : 4 * (ixCandidates w.pk
        [add_immutable_storage_ix_v2 w.pk storage_account_key acctV2 size_as_bytes]).length
        < 256 := by
      norm_num [ixCandidates, ixMetas, add_immutable_storage_ix_v2,
        IncreaseImmutableStorageV2Accounts.to_account_metas]
    have hdatav2 : ∀ b ∈ (add_immutable_storage_ix_v2 w.pk storage_account_key acctV2
        size_as_bytes).data, b < 256 := by
      intro b hb
      simp only [add_immutable_storage_ix_v2, increaseImmutableStorage2Data,
        List.mem_append] at hb
      rcases hb with hb | hb
      · have hd : ∀ x ∈ INCREASE_IMMUTABLE_STORAGE2_DISC, x < 256 := by decide
        exact hd b hb
      · exact toBytesLE_lt 8 _ b hb
    have hdlenv2 : (add_immutable_storage_ix_v2 w.pk storage_account_key acctV2
        size_as_bytes).data.length < 0x10000 := by
      norm_num [add_immutable_storage_ix_v2, increaseImmutableStorage2Data,
        INCREASE_IMMUTABLE_STORAGE2_DISC, toBytesLE_length]
    have halenv2 : (add_immutable_storage_ix_v2 w.pk storage_account_key acctV2
        size_as_bytes).accounts.length < 0x10000 := by
      norm_num [add_immutable_storage_ix_v2,
        IncreaseImmutableStorageV2Accounts.to_account_metas]
    obtain ⟨txn, h1, h2, h3, h4, h5, h6, h7⟩ := try_partial_sign_roundtrip w
      (add_immutable_storage_ix_v2 w.pk storage_account_key acctV2 size_as_bytes) blockhash
      hw hkeysv2 hlenv2 hbh hdatav2 hdlenv2 halenv2
    refine ⟨txn, ?_, h2, h3, h4, h5, h6, h7⟩
    unfold add_immutable_storage_v2
    simp only [henv, h1, serialize_and_encode]

/-- C9 witness: the full roundtrip at a concrete wallet, accounts, size and
blockhash. -/
theorem C9_encode_decode_roundtrip_witness :
    ((Wallet.mk 1 none).signError = none ∧ (1 : Nat) < 256 ^ 32 ∧ (2 : Nat) < 256 ^ 32
      ∧ (3 : Nat) < 256 ^ 32 ∧ (7 : Nat) < 256 ^ 32)
    ∧ ((∃ txn : Transaction,
        (add_immutable_storage_v1 (Wallet.mk 1 none)
            (Env.mk (.ok ()) (.ok (.V1 (StorageAccount.mk true 3 4 0 0 0))) (.ok 7)
              (.ok (HttpResponse.mk 200 none)))
            2 (StorageAccount.mk true 3 4 0 0 0) 5000).1
            = .ok (base64_encode (serializeTransaction txn))
        ∧ base64_decode (base64_encode (serializeTransaction txn))
            = some (serializeTransaction txn)
        ∧ decodeTransaction (serializeTransaction txn) = some (txn, [])
        ∧ txn.message.account_keys.head? = some (Wallet.mk 1 none).pk
        ∧ txn.message.recent_blockhash = 7
        ∧ txn.message.instructions.map (decompileInstruction txn.message.account_keys)
            = [some (PROGRAM_ADDRESS,
                (add_immutable_storage_ix_v1 (Wallet.mk 1 none).pk 2
                  (StorageAccount.mk true 3 4 0 0 0) 5000).accounts.map (·.pubkey),
                increaseImmutableStorageData 5000)]
        ∧ ∃ sig, txn.signatures.head? = some sig
            ∧ verifySig (Wallet.mk 1 none).pk (serializeMessage txn.message) sig = true)
      ∧ (∃ txn : Transaction,
        (add_immutable_storage_v2 (Wallet.mk 1 none)
            (Env.mk (.ok ()) (.ok (.V1 (StorageAccount.mk true 3 4 0 0 0))) (.ok 7)
              (.ok (HttpResponse.mk 200 none)))
            2 (StorageAccountV2.mk true 3 4 0 0 0) 5000).1
            = .ok (base64_encode (serializeTransaction txn))
        ∧ base64_decode (base64_encode (serializeTransaction txn))
            = some (serializeTransaction txn)
        ∧ decodeTransaction (serializeTransaction txn) = some (txn, [])
        ∧ txn.message.account_keys.head? = some (Wallet.mk 1 none).pk
        ∧ txn.message.recent_blockhash = 7
        ∧ txn.message.instructions.map (decompileInstruction txn.message.account_keys)
            = [some (PROGRAM_ADDRESS,
                (add_immutable_storage_ix_v2 (Wallet.mk 1 none).pk 2
                  (StorageAccountV2.mk true 3 4 0 0 0) 5000).accounts.map (·.pubkey),
                increaseImmutableStorage2Data 5000)]
        ∧ ∃ sig, txn.signatures.head? = some sig
            ∧ verifySig (Wallet.mk 1 none).pk (serializeMessage txn.message) sig = true)) :=
  ⟨⟨rfl, by decide, by decide, by decide, by decide⟩,
   C9_encode_decode_roundtrip (Wallet.mk 1 none)
     (Env.mk (.ok ()) (.ok (.V1 (StorageAccount.mk true 3 4 0 0 0))) (.ok 7)
       (.ok (HttpResponse.mk 200 none)))
     2 (StorageAccount.mk true 3 4 0 0 0) (StorageAccountV2.mk true 3 4 0 0 0) 5000 7
     rfl (by decide) (by decide) (by decide) (by decide) rfl (by decide)⟩

/-- C10 witness: concrete V1/V2 accounts sharing `owner_1`. -/
theorem C10_v2_owner1_only_witness :
    (StorageAccount.mk true 3 99 0 0 0).owner_1
        = (StorageAccountV2.mk true 3 4 0 0 0).owner_1
    ∧ (add_immutable_storage_ix_v1 1 2 (StorageAccount.mk true 3 99 0 0 0) 5000).accounts
      = (add_immutable_storage_ix_v2 1 2 (StorageAccountV2.mk true 3 4 0 0 0) 5000).accounts :=
  ⟨rfl,
   (C10_v2_owner1_only 1 2 5000 (StorageAccountV2.mk true 3 4 0 0 0)).2.2
     (StorageAccount.mk true 3 99 0 0 0) rfl⟩

end ShadowDrive
